import Mathlib

/-!
Verification of the OpenEye lifecycle / data-flow analyzers
(`analyzeOpenEyeLifecycle.ts`, `version2.0/analyzeOpenEyeLifecycleEnhanced.ts`,
`analyzeOpenEyeProject.ts`, and the V3 analyzer) against their
natural-language specification.

The TypeScript program model (ArkAnalyzer scene) is shallowly embedded:
classes, methods, control-flow graphs and statements become plain Lean
structures; `String.prototype.includes` becomes substring containment on the
character list; the external undefined-value solver and the regular-expression
target extraction (both external / regex behaviour, consumed as black boxes)
are parameters of the functions that invoke them.  The superclass walk of
`isAbilityClass` is a genuine unbounded `while` loop in the source, so it is
embedded with explicit fuel: a `none` result means the loop has not finished
within the given fuel, and divergence is the statement that the result is
`none` for every fuel.
-/

namespace OpenEye

open scoped List

/-- Substring search on character lists: `containsAux pat cs` is true iff
`pat` occurs contiguously inside `cs`.  Embeds JavaScript
`String.prototype.includes`. -/
def containsAux (pat : List Char) : List Char → Bool
  | [] => pat.isEmpty
  | c :: cs => pat.isPrefixOf (c :: cs) || containsAux pat cs

/-- `strContains s pat` embeds the TypeScript expression `s.includes(pat)`. -/
def strContains (s pat : String) : Bool :=
  containsAux pat.data s.data

/-- A statement of a control-flow graph.  `text` is the rendering
`stmt.toString()`, `exprs` the renderings of `stmt.getExprs()`, `line` the
value of `stmt.getOriginPositionInfo().getLineNo()`. -/
structure StmtE where
  text : String
  exprs : List String
  line : Nat
deriving DecidableEq, Repr

/-- A method entity.  `cfgBlocks = none` embeds `getCfg()` returning
null/undefined; otherwise the blocks (each an ordered statement list) of the
CFG, so `cfg.getStmts()` is the flattening. -/
structure MethodE where
  name : String
  cfgBlocks : Option (List (List StmtE))
  lineCol : Nat
deriving DecidableEq, Repr

/-- A class entity: `superClassName` is `getSuperClassName()`, `decorators`
the decorator names tested by `hasDecorator`, `methods` the result of
`getMethods()`. -/
structure ClassE where
  name : String
  superClassName : String
  decorators : List String
  methods : List MethodE
deriving DecidableEq, Repr

/-- A file of the scene: `getName()` and `getClasses()`. -/
structure FileE where
  name : String
  classes : List ClassE
deriving DecidableEq, Repr

/-- `cls.getSuperClass()`: resolution of the declared superclass name against
the scene's class table; `none` embeds an unresolved reference. -/
def getSuperClassOf (table : List ClassE) (c : ClassE) : Option ClassE :=
  table.find? (fun d => d.name == c.superClassName)

/-- The scene-wide class table backing superclass resolution. -/
def classTable (files : List FileE) : List ClassE :=
  files.flatMap (fun f => f.classes)

/-! ## Role classification (`isAbilityClass` / `isComponentClass`) -/

/-- The Ability base-name set of `OpenEyeLifecycleAnalyzer.isAbilityClass`. -/
def ABILITY_BASE_V1 : List String :=
  ["UIAbility", "Ability", "UIExtensionAbility"]

/-- The Ability base-name set of `OpenEyeLifecycleAnalyzerV3.isAbilityClass`. -/
def ABILITY_BASE_V3 : List String :=
  ["UIAbility", "Ability", "UIExtensionAbility",
   "FormExtensionAbility", "BackupExtensionAbility",
   "ServiceExtensionAbility"]

/-- The `while (superClass) { ... }` loop of `isAbilityClass`, with fuel.
`none` means the loop has not terminated within `fuel` iterations; the source
loop carries no visited set, so this is its only termination bound. -/
def isAbilityWalk (base : List String) (table : List ClassE) :
    Nat → Option ClassE → Option Bool
  | _, none => some false
  | 0, some _ => none
  | fuel + 1, some sc =>
      if base.contains sc.superClassName then some true
      else isAbilityWalk base table fuel (getSuperClassOf table sc)

/-- `isAbilityClass(cls)`: direct base-name check, then the ancestor walk. -/
def isAbilityClass (base : List String) (table : List ClassE) (fuel : Nat)
    (c : ClassE) : Option Bool :=
  if base.contains c.superClassName then some true
  else isAbilityWalk base table fuel (getSuperClassOf table c)

/-- `isComponentClass` of the V1/enhanced analyzers: component base names or
the `Component` decorator. -/
def isComponentClassV1 (c : ClassE) : Bool :=
  ["CustomComponent", "ViewPU"].contains c.superClassName
    || c.decorators.contains "Component"

/-- `isComponentClass` of the V3 analyzer: additionally accepts the `Entry`
decorator. -/
def isComponentClassV3 (c : ClassE) : Bool :=
  ["CustomComponent", "ViewPU"].contains c.superClassName
    || c.decorators.contains "Component"
    || c.decorators.contains "Entry"

/-- Role classification of one class: the pair of the Ability check and the
Component check, as computed per class by `identifyLifecycleMethods`.
`none` propagates a diverging ancestor walk. -/
def classifyV1 (table : List ClassE) (fuel : Nat) (c : ClassE) :
    Option (Bool × Bool) :=
  (isAbilityClass ABILITY_BASE_V1 table fuel c).map
    (fun a => (a, isComponentClassV1 c))

/-- The superclass chain, iterated `n` steps from an optional class. -/
def superIter (table : List ClassE) : Nat → Option ClassE → Option ClassE
  | 0, oc => oc
  | n + 1, oc => superIter table n (oc.bind (getSuperClassOf table))

/-- The ancestor walk of `isAbilityClass` diverges from `c`: it finishes for
no amount of fuel. -/
def abilityWalkDiverges (base : List String) (table : List ClassE)
    (c : ClassE) : Prop :=
  ∀ fuel : Nat, isAbilityClass base table fuel c = none

/-! ## Risk patterns (`containsUndefinedRisk`, `assessSeverity`) -/

inductive Severity where
  | high
  | medium
  | low
deriving DecidableEq, Repr

/-- `containsUndefinedRisk(stmtStr)` of the V1/V3 analyzers. -/
def containsUndefinedRisk (stmtStr : String) : Bool :=
  strContains stmtStr "undefined"
    || strContains stmtStr "null"
    || (strContains stmtStr "fieldload" && strContains stmtStr "?")

/-- `assessSeverity(stmtStr)` of the V1/V3 analyzers. -/
def assessSeverity (stmtStr : String) : Severity :=
  if strContains stmtStr "undefined" then .high
  else if strContains stmtStr "null" then .medium
  else .low

/-! ## Lifecycle catalogs and records -/

/-- `OpenEyeLifecycleAnalyzer.ABILITY_LIFECYCLE` (the 12-entry minimal set). -/
def ABILITY_LIFECYCLE_V1 : List String :=
  ["onCreate", "onDestroy",
   "onWindowStageCreate", "onWindowStageDestroy",
   "onForeground", "onBackground",
   "onNewWant",
   "onConfigurationUpdate",
   "onBackPressed",
   "onWindowStageWillDestroy",
   "onContinue",
   "onSaveState"]

/-- `OpenEyeLifecycleAnalyzer.COMPONENT_LIFECYCLE` (the 14-entry set). -/
def COMPONENT_LIFECYCLE_V1 : List String :=
  ["aboutToAppear", "aboutToDisappear",
   "onPageShow", "onPageHide",
   "onBackPress",
   "onDidBuild",
   "aboutToReuse",
   "aboutToRecycle",
   "onWillApplyTheme",
   "onLayout",
   "onMeasure",
   "onMeasureSize",
   "onFormRecycle",
   "onFormRecover"]

inductive LType where
  | ability
  | component
deriving DecidableEq, Repr

/-- A `LifecycleMethod` record of the V1 analyzer. -/
structure LifecycleMethodE where
  method : MethodE
  typ : LType
  phase : String
  className : String
  filePath : String
deriving DecidableEq, Repr

/-- An `UndefinedIssue` of the V1 analyzer. -/
structure UndefinedIssueE where
  methodKey : String
  line : Nat
  description : String
  severity : Severity
deriving DecidableEq, Repr

/-- A `DataFlowInfo` record. -/
structure DataFlowInfoE where
  fromKey : String
  toKey : String
  varName : String
  line : Nat
  callChain : List String
deriving DecidableEq, Repr

/-! ## Undefined-variable analysis (`analyzeUndefinedVariables`) -/

/-- The statement-level body of the scan loop of `analyzeUndefinedVariables`:
a statement whose rendering matches `containsUndefinedRisk` yields one issue,
any other statement yields none. -/
def issuesForStmt (methodKey : String) (st : StmtE) : List UndefinedIssueE :=
  if containsUndefinedRisk st.text then
    [{ methodKey := methodKey
       line := st.line
       description := "可能的未定义变量访问: " ++ st.text.take 60
       severity := assessSeverity st.text }]
  else []

/-- The per-lifecycle-method body of `analyzeUndefinedVariables`, inside its
`try`: skip when the CFG is absent or has no blocks, run the external solver
when the first block has a statement, then scan every CFG statement.
`solverThrows` embeds whether `solver.solve()` raises for this method; when it
does, the exception is caught by the enclosing `catch` and the rest of the
`try` body — including the statement scan — is skipped. -/
def undefinedIssuesOfMethod (solverThrows : MethodE → Bool)
    (lm : LifecycleMethodE) : List UndefinedIssueE :=
  match lm.method.cfgBlocks with
  | none => []
  | some blocks =>
      match blocks with
      | [] => []
      | b0 :: _ =>
          if b0.isEmpty then []
          else if solverThrows lm.method then []
          else blocks.flatten.flatMap
            (issuesForStmt (lm.className ++ "." ++ lm.phase))

/-- `analyzeUndefinedVariables`: the scan over all recognized lifecycle
methods, issues accumulated in method order. -/
def analyzeUndefinedVariables (solverThrows : MethodE → Bool) :
    List LifecycleMethodE → List UndefinedIssueE
  | [] => []
  | lm :: rest =>
      undefinedIssuesOfMethod solverThrows lm
        ++ analyzeUndefinedVariables solverThrows rest

/-! ## The plain project analyzer (`OpenEyeAnalyzer`, analyzeOpenEyeProject.ts) -/

/-- An `UndefinedIssue` of `OpenEyeAnalyzer`. -/
structure P0Issue where
  file : String
  className : String
  methodName : String
  varName : String
  line : Nat
  description : String
deriving DecidableEq, Repr

/-- `OpenEyeAnalyzer.checkStatement`: the three independent pattern checks,
each appending its own issue (the optional-chaining check records nothing). -/
def checkStatement (fileName className methodName : String) (st : StmtE) :
    List P0Issue :=
  (if strContains st.text "undefined" then
    [{ file := fileName, className := className, methodName := methodName
       varName := "值", line := st.line
       description := "可能使用了 undefined 值" }]
   else [])
  ++ (if strContains st.text "fieldload" && strContains st.text "null" then
    [{ file := fileName, className := className, methodName := methodName
       varName := "字段", line := st.line
       description := "可能的空指针字段访问" }]
   else [])
  ++ (if strContains st.text "arrayload" then
    [{ file := fileName, className := className, methodName := methodName
       varName := "数组元素", line := st.line
       description := "数组访问可能越界导致 undefined" }]
   else [])

/-! ## Data-flow extraction (`analyzeMethodDataFlow`) -/

/-- One `DataFlowInfo` for an invocation-looking expression rendering `e`.
`extract` embeds the regular-expression helper `extractMethodFromInvoke`
(whose regex engine is external); `none` triggers the truncated-text
fallback. -/
def mkDataFlow (extract : String → Option String) (fromKey : String)
    (line : Nat) (e : String) : DataFlowInfoE :=
  { fromKey := fromKey
    toKey := (extract e).getD (e.take 60)
    varName := "data"
    line := line
    callChain := [fromKey, (extract e).getD "unknown"] }

/-- The per-statement body of `analyzeMethodDataFlow`: one record per
expression of the statement whose rendering contains `invoke` or `call`. -/
def dataFlowsForStmt (extract : String → Option String) (fromKey : String)
    (st : StmtE) : List DataFlowInfoE :=
  st.exprs.flatMap (fun e =>
    if strContains e "invoke" || strContains e "call" then
      [mkDataFlow extract fromKey st.line e]
    else [])

/-- `analyzeMethodDataFlow(lifecycleMethod)`: skip when the CFG is absent,
otherwise scan every statement of every block. -/
def analyzeMethodDataFlow (extract : String → Option String)
    (lm : LifecycleMethodE) : List DataFlowInfoE :=
  match lm.method.cfgBlocks with
  | none => []
  | some blocks =>
      blocks.flatten.flatMap
        (dataFlowsForStmt extract (lm.className ++ "." ++ lm.phase))

/-! ## V1 `identifyLifecycleMethods` -/

/-- A file name matching the test-file skip of every analyzer revision. -/
def isTestFile (fileName : String) : Bool :=
  strContains fileName "test" || strContains fileName "Test"

/-- The class skip of the V1 analyzer: default-generated classes. -/
def skipClassV1 (className : String) : Bool :=
  strContains className "_DEFAULT_"

/-- The two independent per-method membership checks of the V1
`identifyLifecycleMethods` body: an Ability record when the class passed the
Ability check and the name is in the Ability catalog, a Component record when
the class passed the Component check and the name is in the Component
catalog. -/
def emitV1 (acat ccat : List String) (isAb isComp : Bool)
    (className fileName : String) (m : MethodE) : List LifecycleMethodE :=
  (if isAb && acat.contains m.name then
    [{ method := m, typ := .ability, phase := m.name
       className := className, filePath := fileName }]
   else [])
  ++ (if isComp && ccat.contains m.name then
    [{ method := m, typ := .component, phase := m.name
       className := className, filePath := fileName }]
   else [])

/-- The method loop of V1 `identifyLifecycleMethods` for one class (the
`totalMethods` counter it bumps feeds only the printed report and is not
carried). -/
def scanMethodsV1 (acat ccat : List String) (isAb isComp : Bool)
    (className fileName : String) (acc : List LifecycleMethodE) :
    List MethodE → List LifecycleMethodE
  | [] => acc
  | m :: ms =>
      scanMethodsV1 acat ccat isAb isComp className fileName
        (acc ++ emitV1 acat ccat isAb isComp className fileName m) ms

/-- One class of the V1 scan: skip default classes, classify, then the method
loop.  A diverging ancestor walk makes the whole scan diverge (`none`). -/
def scanClassV1 (table : List ClassE) (acat ccat : List String) (fuel : Nat)
    (fileName : String) (acc : List LifecycleMethodE) (c : ClassE) :
    Option (List LifecycleMethodE) :=
  if skipClassV1 c.name then some acc
  else
    match isAbilityClass ABILITY_BASE_V1 table fuel c with
    | none => none
    | some isAb =>
        some (scanMethodsV1 acat ccat isAb (isComponentClassV1 c)
          c.name fileName acc c.methods)

/-- The class loop of the V1 scan for one file. -/
def scanClassesV1 (table : List ClassE) (acat ccat : List String) (fuel : Nat)
    (fileName : String) (acc : List LifecycleMethodE) :
    List ClassE → Option (List LifecycleMethodE)
  | [] => some acc
  | c :: cs =>
      match scanClassV1 table acat ccat fuel fileName acc c with
      | none => none
      | some acc' => scanClassesV1 table acat ccat fuel fileName acc' cs

/-- One file of the V1 scan: test files are skipped whole. -/
def scanFileV1 (table : List ClassE) (acat ccat : List String) (fuel : Nat)
    (acc : List LifecycleMethodE) (f : FileE) :
    Option (List LifecycleMethodE) :=
  if isTestFile f.name then some acc
  else scanClassesV1 table acat ccat fuel f.name acc f.classes

/-- The file loop of V1 `identifyLifecycleMethods`. -/
def scanFilesV1 (table : List ClassE) (acat ccat : List String) (fuel : Nat)
    (acc : List LifecycleMethodE) : List FileE → Option (List LifecycleMethodE)
  | [] => some acc
  | f :: fs =>
      match scanFileV1 table acat ccat fuel acc f with
      | none => none
      | some acc' => scanFilesV1 table acat ccat fuel acc' fs

/-- `OpenEyeLifecycleAnalyzer.identifyLifecycleMethods` over a scene, with
its static catalogs. -/
def identifyLifecycleMethodsV1 (fuel : Nat) (files : List FileE) :
    Option (List LifecycleMethodE) :=
  scanFilesV1 (classTable files) ABILITY_LIFECYCLE_V1 COMPONENT_LIFECYCLE_V1
    fuel [] files

/-! ## V3 `identifyLifecycleMethods` with coverage statistics -/

/-- A `CoverageStats` entry of the enhanced/V3 analyzers. -/
structure CoverageStat where
  methodName : String
  isDefined : Bool
  isUsed : Bool
  usageCount : Nat
  classes : List String
  files : List String
deriving DecidableEq, Repr

/-- `initializeStats` for one catalog: every entry defined, unused, count 0,
no classes, no files. -/
def initCoverageTable (cat : List String) : List CoverageStat :=
  cat.map (fun n =>
    { methodName := n, isDefined := true, isUsed := false
      usageCount := 0, classes := [], files := [] })

/-- The V3 in-place update of one coverage entry when a lifecycle method of a
class in a file matched it: mark used, bump the count, record the class and
file names if new. -/
def bumpStat (className fileName : String) (s : CoverageStat) : CoverageStat :=
  { s with
    isUsed := true
    usageCount := s.usageCount + 1
    classes :=
      if s.classes.contains className then s.classes
      else s.classes ++ [className]
    files :=
      if s.files.contains fileName then s.files
      else s.files ++ [fileName] }

/-- `stats.get(methodName)!` followed by the in-place mutation: only the
entry with the matched name changes. -/
def updateStats (tbl : List CoverageStat) (name className fileName : String) :
    List CoverageStat :=
  tbl.map (fun s => if s.methodName == name then bumpStat className fileName s
                    else s)

/-- The V3 class skip: default-generated, anonymous and dflt classes. -/
def skipClassV3 (className : String) : Bool :=
  strContains className "_DEFAULT_"
    || strContains className "%AC"
    || strContains className "%dflt"

/-- `hasImplementation`: a CFG is present and has at least one block. -/
def hasImpl (m : MethodE) : Bool :=
  match m.cfgBlocks with
  | none => false
  | some blocks => !blocks.isEmpty

/-- A `LifecycleMethodInfo` record of the V3 analyzer. -/
structure LifecycleInfoE where
  method : MethodE
  typ : LType
  phase : String
  className : String
  filePath : String
  lineNumber : Nat
  hasImplementation : Bool
deriving DecidableEq, Repr

/-- The mutable state of the V3 analyzer touched by
`identifyLifecycleMethods`. -/
structure V3State where
  lifecycleMethods : List LifecycleInfoE
  abilityStats : List CoverageStat
  componentStats : List CoverageStat
  callbackStats : List CoverageStat
  totalFiles : Nat
  totalClasses : Nat
  totalMethods : Nat
  abilityClasses : Nat
  componentClasses : Nat
deriving DecidableEq, Repr

/-- The V3 record pushed for one matched method. -/
def mkInfoV3 (t : LType) (className fileName : String) (m : MethodE) :
    LifecycleInfoE :=
  { method := m, typ := t, phase := m.name, className := className
    filePath := fileName, lineNumber := m.lineCol
    hasImplementation := hasImpl m }

/-- The per-method body of V3 `identifyLifecycleMethods`: count the method,
then the two independent catalog checks, each pushing a record and updating
its own coverage table. -/
def scanMethodV3 (acat ccat : List String) (isAb isComp : Bool)
    (className fileName : String) (st : V3State) (m : MethodE) : V3State :=
  let st := { st with totalMethods := st.totalMethods + 1 }
  let st :=
    if isAb && acat.contains m.name then
      { st with
        lifecycleMethods :=
          st.lifecycleMethods ++ [mkInfoV3 .ability className fileName m]
        abilityStats := updateStats st.abilityStats m.name className fileName }
    else st
  if isComp && ccat.contains m.name then
    { st with
      lifecycleMethods :=
        st.lifecycleMethods ++ [mkInfoV3 .component className fileName m]
      componentStats := updateStats st.componentStats m.name className fileName }
  else st

/-- The method loop of the V3 scan for one class. -/
def scanMethodsV3 (acat ccat : List String) (isAb isComp : Bool)
    (className fileName : String) (st : V3State) :
    List MethodE → V3State
  | [] => st
  | m :: ms =>
      scanMethodsV3 acat ccat isAb isComp className fileName
        (scanMethodV3 acat ccat isAb isComp className fileName st m) ms

/-- One class of the V3 scan: skip, classify, count the class and its roles,
then the method loop. -/
def scanClassV3 (table : List ClassE) (acat ccat : List String) (fuel : Nat)
    (fileName : String) (st : V3State) (c : ClassE) : Option V3State :=
  if skipClassV3 c.name then some st
  else
    match isAbilityClass ABILITY_BASE_V3 table fuel c with
    | none => none
    | some isAb =>
        let isComp := isComponentClassV3 c
        let st :=
          { st with
            totalClasses := st.totalClasses + 1
            abilityClasses := st.abilityClasses + (if isAb then 1 else 0)
            componentClasses :=
              st.componentClasses + (if isComp then 1 else 0) }
        some (scanMethodsV3 acat ccat isAb isComp c.name fileName st c.methods)

/-- The class loop of the V3 scan for one file. -/
def scanClassesV3 (table : List ClassE) (acat ccat : List String) (fuel : Nat)
    (fileName : String) (st : V3State) : List ClassE → Option V3State
  | [] => some st
  | c :: cs =>
      match scanClassV3 table acat ccat fuel fileName st c with
      | none => none
      | some st' => scanClassesV3 table acat ccat fuel fileName st' cs

/-- One file of the V3 scan: test files are skipped whole. -/
def scanFileV3 (table : List ClassE) (acat ccat : List String) (fuel : Nat)
    (st : V3State) (f : FileE) : Option V3State :=
  if isTestFile f.name then some st
  else scanClassesV3 table acat ccat fuel f.name st f.classes

/-- The file loop of V3 `identifyLifecycleMethods`. -/
def scanFilesV3 (table : List ClassE) (acat ccat : List String) (fuel : Nat)
    (st : V3State) : List FileE → Option V3State
  | [] => some st
  | f :: fs =>
      match scanFileV3 table acat ccat fuel st f with
      | none => none
      | some st' => scanFilesV3 table acat ccat fuel st' fs

/-- The analyzer state right after the V3 constructor ran
`initializeStats`: the three coverage tables initialized from the injected
catalogs (the Ability, Component and callback catalogs are imported framework
constants, so they are parameters here), everything else empty. -/
def initV3State (acat ccat cbcat : List String) : V3State :=
  { lifecycleMethods := []
    abilityStats := initCoverageTable acat
    componentStats := initCoverageTable ccat
    callbackStats := initCoverageTable cbcat
    totalFiles := 0, totalClasses := 0, totalMethods := 0
    abilityClasses := 0, componentClasses := 0 }

/-- `OpenEyeLifecycleAnalyzerV3.identifyLifecycleMethods` over a scene, from
the freshly initialized state: record the file count, then the file loop. -/
def identifyLifecycleMethodsV3 (acat ccat cbcat : List String) (fuel : Nat)
    (files : List FileE) : Option V3State :=
  scanFilesV3 (classTable files) acat ccat fuel
    { initV3State acat ccat cbcat with totalFiles := files.length } files

/-! ## `OpenEyeAnalyzer.analyze` (the per-file undefined-variable sweep) -/

/-- The counters and issue list of `OpenEyeAnalyzer`. -/
structure P0State where
  totalClasses : Nat
  totalMethods : Nat
  analyzedMethods : Nat
  issuesFound : Nat
  issues : List P0Issue
deriving DecidableEq, Repr

/-- `OpenEyeAnalyzer.analyzeMethod`: skip internal methods and constructors,
count the method as analyzed, skip absent CFGs, and — unless the external
solver throws, which the surrounding `catch` swallows together with the
statement scan — check every statement. -/
def analyzeMethodP0 (solverThrows : MethodE → Bool)
    (className fileName : String) (st : P0State) (m : MethodE) : P0State :=
  if m.name.startsWith "__" || m.name == "constructor" then st
  else
    let st := { st with analyzedMethods := st.analyzedMethods + 1 }
    match m.cfgBlocks with
    | none => st
    | some blocks =>
        if solverThrows m then st
        else
          let found := blocks.flatten.flatMap
            (checkStatement fileName className m.name)
          { st with
            issues := st.issues ++ found
            issuesFound := st.issuesFound + found.length }

/-- The method loop of `OpenEyeAnalyzer.analyzeClass`. -/
def analyzeMethodsP0 (solverThrows : MethodE → Bool)
    (className fileName : String) (st : P0State) : List MethodE → P0State
  | [] => st
  | m :: ms =>
      analyzeMethodsP0 solverThrows className fileName
        (analyzeMethodP0 solverThrows className fileName st m) ms

/-- `OpenEyeAnalyzer.analyzeClass`: count the class's methods, then the
method loop. -/
def analyzeClassP0 (solverThrows : MethodE → Bool) (fileName : String)
    (st : P0State) (c : ClassE) : P0State :=
  analyzeMethodsP0 solverThrows c.name fileName
    { st with totalMethods := st.totalMethods + c.methods.length } c.methods

/-- The class loop of `OpenEyeAnalyzer.analyzeFile`. -/
def analyzeClassesP0 (solverThrows : MethodE → Bool) (fileName : String)
    (st : P0State) : List ClassE → P0State
  | [] => st
  | c :: cs =>
      analyzeClassesP0 solverThrows fileName
        (analyzeClassP0 solverThrows fileName st c) cs

/-- `OpenEyeAnalyzer.analyzeFile`: test files are skipped whole, otherwise
count the classes and run the class loop. -/
def analyzeFileP0 (solverThrows : MethodE → Bool) (st : P0State) (f : FileE) :
    P0State :=
  if isTestFile f.name then st
  else analyzeClassesP0 solverThrows f.name
    { st with totalClasses := st.totalClasses + f.classes.length } f.classes

/-- The file loop of `OpenEyeAnalyzer.analyze`. -/
def analyzeFilesP0 (solverThrows : MethodE → Bool) (st : P0State) :
    List FileE → P0State
  | [] => st
  | f :: fs =>
      analyzeFilesP0 solverThrows (analyzeFileP0 solverThrows st f) fs

/-! ## The enhanced analyzer (`EnhancedOpenEyeLifecycleAnalyzer`) -/

/-- The Ability base-name set of the enhanced analyzer's `isAbilityClass`. -/
def ABILITY_BASE_ENH : List String :=
  ["UIAbility", "Ability", "UIExtensionAbility",
   "FormExtensionAbility", "BackupExtensionAbility"]

/-- The enhanced class skip: default-generated and percent-named classes. -/
def skipClassEnh (className : String) : Bool :=
  strContains className "_DEFAULT_" || strContains className "%"

/-- A `CoverageStats` entry of the enhanced analyzer (no file list). -/
structure EnhCoverageStat where
  methodName : String
  isDefined : Bool
  isUsed : Bool
  usageCount : Nat
  classes : List String
deriving DecidableEq, Repr

/-- The enhanced `initializeStats` for one catalog. -/
def initEnhTable (cat : List String) : List EnhCoverageStat :=
  cat.map (fun n =>
    { methodName := n, isDefined := true, isUsed := false
      usageCount := 0, classes := [] })

/-- The enhanced per-match update: mark used, bump the count, and push the
class name unconditionally (duplicates are kept). -/
def bumpEnhStat (className : String) (s : EnhCoverageStat) : EnhCoverageStat :=
  { s with
    isUsed := true
    usageCount := s.usageCount + 1
    classes := s.classes ++ [className] }

/-- The enhanced table update at one catalog entry. -/
def updateEnhStats (tbl : List EnhCoverageStat) (name className : String) :
    List EnhCoverageStat :=
  tbl.map (fun s => if s.methodName == name then bumpEnhStat className s
                    else s)

/-- A `LifecycleMethodInfo` record of the enhanced analyzer. -/
structure EnhInfoE where
  method : MethodE
  typ : LType
  phase : String
  className : String
  filePath : String
  lineNumber : Nat
deriving DecidableEq, Repr

/-- The state of the enhanced analyzer touched by its
`identifyLifecycleMethods` (the class counters are local variables of the
method, carried here through the fold). -/
structure EnhState where
  lifecycleMethods : List EnhInfoE
  abilityStats : List EnhCoverageStat
  componentStats : List EnhCoverageStat
  totalClasses : Nat
  abilityClasses : Nat
  componentClasses : Nat
deriving DecidableEq, Repr

/-- The per-method body of the enhanced scan: the two independent catalog
checks, each pushing a record and updating its own coverage table. -/
def scanMethodEnh (acat ccat : List String) (isAb isComp : Bool)
    (className fileName : String) (st : EnhState) (m : MethodE) : EnhState :=
  let st :=
    if isAb && acat.contains m.name then
      { st with
        lifecycleMethods := st.lifecycleMethods
          ++ [{ method := m, typ := .ability, phase := m.name
                className := className, filePath := fileName
                lineNumber := m.lineCol }]
        abilityStats := updateEnhStats st.abilityStats m.name className }
    else st
  if isComp && ccat.contains m.name then
    { st with
      lifecycleMethods := st.lifecycleMethods
        ++ [{ method := m, typ := .component, phase := m.name
              className := className, filePath := fileName
              lineNumber := m.lineCol }]
      componentStats := updateEnhStats st.componentStats m.name className }
  else st

/-- The method loop of the enhanced scan for one class. -/
def scanMethodsEnh (acat ccat : List String) (isAb isComp : Bool)
    (className fileName : String) (st : EnhState) : List MethodE → EnhState
  | [] => st
  | m :: ms =>
      scanMethodsEnh acat ccat isAb isComp className fileName
        (scanMethodEnh acat ccat isAb isComp className fileName st m) ms

/-- One class of the enhanced scan. -/
def scanClassEnh (table : List ClassE) (acat ccat : List String) (fuel : Nat)
    (fileName : String) (st : EnhState) (c : ClassE) : Option EnhState :=
  if skipClassEnh c.name then some st
  else
    match isAbilityClass ABILITY_BASE_ENH table fuel c with
    | none => none
    | some isAb =>
        let isComp := isComponentClassV1 c
        let st :=
          { st with
            totalClasses := st.totalClasses + 1
            abilityClasses := st.abilityClasses + (if isAb then 1 else 0)
            componentClasses :=
              st.componentClasses + (if isComp then 1 else 0) }
        some (scanMethodsEnh acat ccat isAb isComp c.name fileName st
          c.methods)

/-- The class loop of the enhanced scan for one file. -/
def scanClassesEnh (table : List ClassE) (acat ccat : List String)
    (fuel : Nat) (fileName : String) (st : EnhState) :
    List ClassE → Option EnhState
  | [] => some st
  | c :: cs =>
      match scanClassEnh table acat ccat fuel fileName st c with
      | none => none
      | some st' => scanClassesEnh table acat ccat fuel fileName st' cs

/-- One file of the enhanced scan: test files are skipped whole. -/
def scanFileEnh (table : List ClassE) (acat ccat : List String) (fuel : Nat)
    (st : EnhState) (f : FileE) : Option EnhState :=
  if isTestFile f.name then some st
  else scanClassesEnh table acat ccat fuel f.name st f.classes

/-- The file loop of the enhanced `identifyLifecycleMethods`. -/
def scanFilesEnh (table : List ClassE) (acat ccat : List String) (fuel : Nat)
    (st : EnhState) : List FileE → Option EnhState
  | [] => some st
  | f :: fs =>
      match scanFileEnh table acat ccat fuel st f with
      | none => none
      | some st' => scanFilesEnh table acat ccat fuel st' fs

/-- The enhanced analyzer state after its constructor ran
`initializeStats`. -/
def initEnhState (acat ccat : List String) : EnhState :=
  { lifecycleMethods := []
    abilityStats := initEnhTable acat
    componentStats := initEnhTable ccat
    totalClasses := 0, abilityClasses := 0, componentClasses := 0 }

/-- `EnhancedOpenEyeLifecycleAnalyzer.identifyLifecycleMethods` over a
scene. -/
def identifyLifecycleMethodsEnh (acat ccat : List String) (fuel : Nat)
    (files : List FileE) : Option EnhState :=
  scanFilesEnh (classTable files) acat ccat fuel (initEnhState acat ccat)
    files

/-! ## Concrete scene fragments used by counterexamples and witnesses -/

/-- A statement whose rendering contains the `undefined` token. -/
def stmtUndef : StmtE :=
  { text := "a = undefined", exprs := [], line := 3 }

/-- An implemented `onCreate` whose single statement mentions `undefined`. -/
def mOnCreate : MethodE :=
  { name := "onCreate", cfgBlocks := some [[stmtUndef]], lineCol := 1 }

/-- A recognized Ability lifecycle record for `mOnCreate`. -/
def lmOnCreate : LifecycleMethodE :=
  { method := mOnCreate, typ := .ability, phase := "onCreate"
    className := "MainAbility", filePath := "Main.ets" }

/-! ## Derived forms, invariant predicates and concrete scenes used by the theorems -/

/-- A statement rendering with two invocation expressions. -/
def stmtTwoInvokes : StmtE :=
  { text := "instanceinvoke this.foo(); instanceinvoke this.bar()"
    exprs := ["instanceinvoke this.<A: .foo()>()",
              "instanceinvoke this.<A: .bar()>()"]
    line := 7 }

/-- A lifecycle record whose method body is the two-invocation statement. -/
def lmTwoInvokes : LifecycleMethodE :=
  { method :=
      { name := "aboutToAppear", cfgBlocks := some [[stmtTwoInvokes]]
        lineCol := 6 }
    typ := .component, phase := "aboutToAppear"
    className := "Dialog", filePath := "Dialog.ets" }

/-- A statement matching both the `undefined` pattern and the array-access
pattern of `checkStatement`. -/
def stmtArrayUndef : StmtE :=
  { text := "x = arrayload data[i] ?? undefined", exprs := [], line := 12 }

/-- A statement rendering containing both tokens. -/
def stmtUndefNull : StmtE :=
  { text := "p = undefined; q = null", exprs := [], line := 9 }

/-- A class whose declared superclass resolves to itself: malformed but
representable input. -/
def cycClass : ClassE :=
  { name := "Self", superClassName := "Self", decorators := [], methods := [] }

/-- The one-class cyclic scene table. -/
def cycTable : List ClassE := [cycClass]

/-- A well-formed Ability class over a table where `UIAbility` itself is not
loaded (unresolved framework superclass). -/
def myAbilityClass : ClassE :=
  { name := "EntryAbility", superClassName := "UIAbility", decorators := []
    methods := [mOnCreate] }

/-- The records contributed by one class of the V1 scan. -/
def classEmissionV1 (table : List ClassE) (acat ccat : List String)
    (fuel : Nat) (fileName : String) (c : ClassE) :
    Option (List LifecycleMethodE) :=
  if skipClassV1 c.name then some []
  else
    match isAbilityClass ABILITY_BASE_V1 table fuel c with
    | none => none
    | some isAb =>
        some (c.methods.flatMap
          (emitV1 acat ccat isAb (isComponentClassV1 c) c.name fileName))

/-- The records contributed by a class list of the V1 scan. -/
def classesEmissionV1 (table : List ClassE) (acat ccat : List String)
    (fuel : Nat) (fileName : String) :
    List ClassE → Option (List LifecycleMethodE)
  | [] => some []
  | c :: cs =>
      match classEmissionV1 table acat ccat fuel fileName c with
      | none => none
      | some e =>
          match classesEmissionV1 table acat ccat fuel fileName cs with
          | none => none
          | some es => some (e ++ es)

/-- The records contributed by one file of the V1 scan. -/
def fileEmissionV1 (table : List ClassE) (acat ccat : List String)
    (fuel : Nat) (f : FileE) : Option (List LifecycleMethodE) :=
  if isTestFile f.name then some []
  else classesEmissionV1 table acat ccat fuel f.name f.classes

/-- The records contributed by a file list of the V1 scan. -/
def filesEmissionV1 (table : List ClassE) (acat ccat : List String)
    (fuel : Nat) : List FileE → Option (List LifecycleMethodE)
  | [] => some []
  | f :: fs =>
      match fileEmissionV1 table acat ccat fuel f with
      | none => none
      | some e =>
          match filesEmissionV1 table acat ccat fuel fs with
          | none => none
          | some es => some (e ++ es)

/-- A method recognized by the Component catalog, with an implementation. -/
def mAboutToAppear : MethodE :=
  { name := "aboutToAppear"
    cfgBlocks := some [[{ text := "ok", exprs := [], line := 11 }]]
    lineCol := 10 }

/-- A class matching both base sets: it extends `UIAbility` and carries the
`Component` decorator. -/
def clsBothRoles : ClassE :=
  { name := "SuperWidget", superClassName := "UIAbility"
    decorators := ["Component"], methods := [mAboutToAppear] }

/-- The one-file scene containing the both-roles class. -/
def bothFiles : List FileE :=
  [{ name := "Widget.ets", classes := [clsBothRoles] }]

/-- The Component-partition record the V1 scan produces for that class. -/
def compRecBoth : LifecycleMethodE :=
  { method := mAboutToAppear, typ := .component, phase := "aboutToAppear"
    className := "SuperWidget", filePath := "Widget.ets" }

/-- The three-way CoverageStat equivalence of the spec. -/
def statInv (s : CoverageStat) : Prop :=
  (s.isUsed = true ↔ 0 < s.usageCount) ∧ (0 < s.usageCount ↔ s.classes ≠ [])

/-- Pointwise monotonicity of one coverage entry: the used flag never falls
back, the count never decreases, and the class and file collections only ever
grow at the end. -/
def statLE (s t : CoverageStat) : Prop :=
  (s.isUsed = true → t.isUsed = true)
    ∧ s.usageCount ≤ t.usageCount
    ∧ s.classes <+: t.classes
    ∧ s.files <+: t.files

/-- Entrywise monotonicity of a coverage table. -/
def tableLE : List CoverageStat → List CoverageStat → Prop :=
  List.Forall₂ statLE

/-- The components of the V3 state a scan step may only extend or leave
untouched: the callback table is never written, both coverage tables grow
pointwise, and the three-way equivalence is preserved on each. -/
def stepOK (st st' : V3State) : Prop :=
  st'.callbackStats = st.callbackStats
    ∧ tableLE st.abilityStats st'.abilityStats
    ∧ tableLE st.componentStats st'.componentStats
    ∧ ((∀ s ∈ st.abilityStats, statInv s) →
        ∀ s ∈ st'.abilityStats, statInv s)
    ∧ ((∀ s ∈ st.componentStats, statInv s) →
        ∀ s ∈ st'.componentStats, statInv s)

/-- The three-way equivalence for an enhanced coverage entry. -/
def statInvEnh (s : EnhCoverageStat) : Prop :=
  (s.isUsed = true ↔ 0 < s.usageCount) ∧ (0 < s.usageCount ↔ s.classes ≠ [])

/-- Pointwise monotonicity of an enhanced coverage entry. -/
def statLEEnh (s t : EnhCoverageStat) : Prop :=
  (s.isUsed = true → t.isUsed = true)
    ∧ s.usageCount ≤ t.usageCount
    ∧ s.classes <+: t.classes

/-- Entrywise monotonicity of an enhanced coverage table. -/
def tableLEEnh : List EnhCoverageStat → List EnhCoverageStat → Prop :=
  List.Forall₂ statLEEnh

/-- What one enhanced scan step may do to the two coverage tables. -/
def stepOKEnh (st st' : EnhState) : Prop :=
  tableLEEnh st.abilityStats st'.abilityStats
    ∧ tableLEEnh st.componentStats st'.componentStats
    ∧ ((∀ s ∈ st.abilityStats, statInvEnh s) →
        ∀ s ∈ st'.abilityStats, statInvEnh s)
    ∧ ((∀ s ∈ st.componentStats, statInvEnh s) →
        ∀ s ∈ st'.componentStats, statInvEnh s)

/-- A one-file, one-Ability-class scene for witnessing the V3 theorems. -/
def filesW : List FileE :=
  [{ name := "Main.ets", classes := [myAbilityClass] }]

/-- The state the V3 scan computes on `filesW` with singleton catalogs. -/
def v3OutW : V3State :=
  (identifyLifecycleMethodsV3 ["onCreate"] ["aboutToAppear"] ["onClick"] 1
    filesW).getD (initV3State [] [] [])

/-- The state the enhanced scan computes on `filesW` with singleton
catalogs. -/
def enhOutW : EnhState :=
  (identifyLifecycleMethodsEnh ["onCreate"] ["aboutToAppear"] 1 filesW).getD
    (initEnhState [] [])

/-- A class implementing two Ability lifecycle methods. -/
def clsBig : ClassE :=
  { name := "BigAbility", superClassName := "UIAbility", decorators := []
    methods := [mOnCreate,
      { name := "onDestroy", cfgBlocks := some [[]], lineCol := 2 }] }

/-- The scene for the catalog-swap witness. -/
def filesC8 : List FileE := [{ name := "Big.ets", classes := [clsBig] }]

/-- The scan state under the singleton (subset) Ability catalog. -/
def outSubW : V3State :=
  (identifyLifecycleMethodsV3 ["onCreate"] [] [] 1 filesC8).getD
    (initV3State [] [] [])

/-- The scan state under the two-entry (superset) Ability catalog. -/
def outSupW : V3State :=
  (identifyLifecycleMethodsV3 ["onCreate", "onDestroy"] [] [] 1 filesC8).getD
    (initV3State [] [] [])

/-! ## General helper lemmas -/

theorem length_flatMap_if {α β : Type} (p : α → Bool) (g : α → β) :
    ∀ l : List α,
      (l.flatMap (fun e => if p e then [g e] else [])).length
        = (l.filter p).length
  | [] => rfl
  | a :: l => by
      by_cases h : p a <;>
        simp [List.flatMap_cons, List.filter_cons, h, length_flatMap_if p g l]

theorem undefinedIssuesOfMethod_of_noThrow (f : MethodE → Bool)
    (lm : LifecycleMethodE) (h : f lm.method = false) :
    undefinedIssuesOfMethod f lm = undefinedIssuesOfMethod (fun _ => false) lm := by
  unfold undefinedIssuesOfMethod
  cases lm.method.cfgBlocks with
  | none => rfl
  | some blocks =>
      cases blocks with
      | nil => rfl
      | cons b0 bs => simp [h]

theorem undefinedIssuesOfMethod_of_throw (f : MethodE → Bool)
    (lm : LifecycleMethodE) (h : f lm.method = true) :
    undefinedIssuesOfMethod f lm = [] := by
  unfold undefinedIssuesOfMethod
  cases lm.method.cfgBlocks with
  | none => rfl
  | some blocks =>
      cases blocks with
      | nil => rfl
      | cons b0 bs => by_cases hb : b0.isEmpty <;> simp [h, hb]

/-! ## C1 — solver failure versus the statement-level pattern scan -/

/-- C1 counterexample: on a lifecycle method whose single statement contains
the `undefined` token, a throwing solver makes `analyzeUndefinedVariables`
record nothing for that method, while the identical run with a non-throwing
solver records one issue — the heuristic results for the failing method are
suppressed, contradicting the claim. -/
theorem c1_counterexample :
    analyzeUndefinedVariables (fun _ => true) [lmOnCreate] = []
      ∧ (analyzeUndefinedVariables (fun _ => false) [lmOnCreate]).length = 1 := by
  constructor
  · rfl
  · rfl

/-- C1 (amended): an exception of the external solver is swallowed locally —
the scan of every other lifecycle method proceeds unchanged — but the
statement-level pattern scan of the failing method itself is skipped: a run
with failures equals a failure-free run over exactly the non-failing
methods. -/
theorem c1_solver_failure_is_local (f : MethodE → Bool) :
    ∀ lms : List LifecycleMethodE,
      analyzeUndefinedVariables f lms
        = analyzeUndefinedVariables (fun _ => false)
            (lms.filter (fun lm => !(f lm.method)))
  | [] => rfl
  | lm :: rest => by
      by_cases hf : f lm.method
      · have hdrop : (!(f lm.method)) = false := by simp [hf]
        simp [analyzeUndefinedVariables, List.filter_cons, hdrop,
          undefinedIssuesOfMethod_of_throw f lm hf,
          c1_solver_failure_is_local f rest]
      · have hkeep : (!(f lm.method)) = true := by simp [hf]
        have hf' : f lm.method = false := by simp [hf]
        simp [analyzeUndefinedVariables, List.filter_cons, hkeep,
          undefinedIssuesOfMethod_of_noThrow f lm hf',
          c1_solver_failure_is_local f rest]

/-! ## C4 — one DataFlowRecord per invocation-looking expression -/

/-- C4 counterexample: a single statement whose rendering contains the
invocation marker but which carries two invocation expressions yields two
DataFlowRecords, not exactly one — records are per expression, not per
statement. -/
theorem c4_counterexample :
    strContains stmtTwoInvokes.text "invoke" = true
      ∧ (analyzeMethodDataFlow (fun _ => none) lmTwoInvokes).length = 2 := by
  constructor
  · rfl
  · rfl

theorem length_flatMap_dataFlows (extract : String → Option String)
    (key : String) :
    ∀ sts : List StmtE,
      (sts.flatMap (dataFlowsForStmt extract key)).length
        = (sts.map (fun st =>
            (st.exprs.filter (fun e =>
              strContains e "invoke" || strContains e "call")).length)).sum
  | [] => rfl
  | st :: sts => by
      simp only [List.flatMap_cons, List.map_cons, List.length_append,
        List.sum_cons, length_flatMap_dataFlows extract key sts]
      rw [show (dataFlowsForStmt extract key st).length
            = (st.exprs.filter (fun e =>
                strContains e "invoke" || strContains e "call")).length
          from length_flatMap_if _ _ st.exprs]

/-- C4 (amended): edge extraction is per expression — for every statement,
exactly one DataFlowRecord per expression whose rendering contains `invoke`
or `call`, and for every scanned method the record count is the sum of those
per-statement counts. -/
theorem c4_one_record_per_invocation_expr :
    (∀ (extract : String → Option String) (key : String) (st : StmtE),
        (dataFlowsForStmt extract key st).length
          = (st.exprs.filter
              (fun e => strContains e "invoke" || strContains e "call")).length)
      ∧ (∀ (extract : String → Option String) (lm : LifecycleMethodE)
            (blocks : List (List StmtE)),
          lm.method.cfgBlocks = some blocks →
          (analyzeMethodDataFlow extract lm).length
            = (blocks.flatten.map (fun st =>
                (st.exprs.filter (fun e =>
                  strContains e "invoke" || strContains e "call")).length)).sum) := by
  constructor
  · intro extract key st
    exact length_flatMap_if _ _ st.exprs
  · intro extract lm blocks hcfg
    unfold analyzeMethodDataFlow
    rw [hcfg]
    exact length_flatMap_dataFlows extract (lm.className ++ "." ++ lm.phase)
      blocks.flatten

/-- C4 witness: the per-method count formula evaluated on the concrete
two-invocation method. -/
theorem c4_witness :
    (analyzeMethodDataFlow (fun _ => none) lmTwoInvokes).length
      = (([[stmtTwoInvokes]] : List (List StmtE)).flatten.map (fun st =>
          (st.exprs.filter (fun e =>
            strContains e "invoke" || strContains e "call")).length)).sum :=
  c4_one_record_per_invocation_expr.2 (fun _ => none) lmTwoInvokes
    [[stmtTwoInvokes]] rfl

/-! ## C5 — issues per statement per scan pass -/

/-- C5 counterexample: `OpenEyeAnalyzer.checkStatement` produces two issues
for one statement matching two risk patterns, contradicting "at most one
issue per statement". -/
theorem c5_counterexample :
    (checkStatement "Main.ets" "Page" "load" stmtArrayUndef).length = 2 := by
  rfl

/-- C5 (amended): the lifecycle analyzers produce at most one issue per
statement per pass, but `OpenEyeAnalyzer.checkStatement` runs its risk
patterns independently and produces one issue per matching pattern — up to
three for a single statement. -/
theorem c5_issue_multiplicity_per_statement :
    (∀ (key : String) (st : StmtE), (issuesForStmt key st).length ≤ 1)
      ∧ (∀ (fileName className methodName : String) (st : StmtE),
          (checkStatement fileName className methodName st).length
            = (if strContains st.text "undefined" then 1 else 0)
              + (if strContains st.text "fieldload"
                    && strContains st.text "null" then 1 else 0)
              + (if strContains st.text "arrayload" then 1 else 0)
          ∧ (checkStatement fileName className methodName st).length ≤ 3) := by
  constructor
  · intro key st
    unfold issuesForStmt
    split <;> simp
  · intro fileName className methodName st
    constructor
    · unfold checkStatement
      split <;> split <;> split <;> simp
    · unfold checkStatement
      split <;> split <;> split <;> simp

/-! ## C6 — the undefined token dominates severity -/

/-- C6 (confirmed): any statement whose rendering contains both the
`undefined` and the `null` token yields exactly one issue, of severity high —
the `undefined` pattern has strict priority in `assessSeverity`. -/
theorem c6_undefined_token_severity_high (key : String) (st : StmtE)
    (hu : strContains st.text "undefined" = true)
    (_hn : strContains st.text "null" = true) :
    (issuesForStmt key st).map (fun i => i.severity) = [Severity.high] := by
  unfold issuesForStmt containsUndefinedRisk assessSeverity
  simp [hu]

/-- C6 witness: the concrete both-token statement gets a single high-severity
issue. -/
theorem c6_witness :
    (issuesForStmt "MainAbility.onCreate" stmtUndefNull).map
        (fun i => i.severity) = [Severity.high] :=
  c6_undefined_token_severity_high "MainAbility.onCreate" stmtUndefNull rfl rfl

/-! ## C2 — totality and termination of role classification -/

/-- If the superclass chain starting at `oc` dies out within `n` resolution
steps, the ancestor walk returns an answer within fuel `n`. -/
theorem isAbilityWalk_isSome_of_chain_finite (base : List String)
    (table : List ClassE) :
    ∀ (n : Nat) (oc : Option ClassE),
      superIter table n oc = none → (isAbilityWalk base table n oc).isSome
  | 0, oc, h => by
      have h' : oc = none := h
      subst h'
      rfl
  | n + 1, none, _ => rfl
  | n + 1, some sc, h => by
      have hred : isAbilityWalk base table (n + 1) (some sc)
          = if base.contains sc.superClassName then some true
            else isAbilityWalk base table n (getSuperClassOf table sc) := rfl
      rw [hred]
      cases hb : base.contains sc.superClassName
      · rw [if_neg (by simp [hb])]
        exact isAbilityWalk_isSome_of_chain_finite base table n
          (getSuperClassOf table sc) h
      · rfl

/-- C2 (amended): role classification — the pair of the Ability-class and
Component-class checks — is total and terminating for every class whose
superclass chain is finite, in particular when it ends in an unresolved or
absent superclass: with fuel `n` the V1 classification and the V3 Ability check
both return an answer whenever the chain resolves to nothing within `n + 1`
steps.  (There is no visited-set guard in the source; the cyclic case is the
counterexample.) -/
theorem c2_classification_total_on_finite_chains (table : List ClassE)
    (n : Nat) (c : ClassE)
    (h : superIter table (n + 1) (some c) = none) :
    (classifyV1 table n c).isSome
      ∧ (isAbilityClass ABILITY_BASE_V3 table n c).isSome := by
  have hstep : superIter table n (getSuperClassOf table c) = none := h
  constructor
  · have hred : classifyV1 table n c
        = (if ABILITY_BASE_V1.contains c.superClassName then some true
           else isAbilityWalk ABILITY_BASE_V1 table n
             (getSuperClassOf table c)).map
          (fun a => (a, isComponentClassV1 c)) := rfl
    rw [hred]
    cases hb : ABILITY_BASE_V1.contains c.superClassName
    · rw [if_neg (by simp [hb])]
      obtain ⟨b, hbb⟩ := Option.isSome_iff_exists.mp
        (isAbilityWalk_isSome_of_chain_finite ABILITY_BASE_V1 table n
          (getSuperClassOf table c) hstep)
      rw [hbb]
      rfl
    · rfl
  · have hred : isAbilityClass ABILITY_BASE_V3 table n c
        = if ABILITY_BASE_V3.contains c.superClassName then some true
          else isAbilityWalk ABILITY_BASE_V3 table n
            (getSuperClassOf table c) := rfl
    rw [hred]
    cases hb : ABILITY_BASE_V3.contains c.superClassName
    · rw [if_neg (by simp [hb])]
      exact isAbilityWalk_isSome_of_chain_finite ABILITY_BASE_V3 table n
        (getSuperClassOf table c) hstep
    · rfl

theorem cyc_walk_stuck :
    ∀ n : Nat,
      isAbilityWalk ABILITY_BASE_V1 cycTable n (some cycClass) = none
  | 0 => rfl
  | n + 1 => by
      show isAbilityWalk ABILITY_BASE_V1 cycTable n
            (getSuperClassOf cycTable cycClass) = none
      exact cyc_walk_stuck n

/-- C2 counterexample: on a cyclic superclass chain the ancestor walk of
`isAbilityClass` terminates for no amount of fuel — the loop revisits the
very class it started from after one resolution step, because the source
carries no visited-set guard. -/
theorem c2_counterexample :
    abilityWalkDiverges ABILITY_BASE_V1 cycTable cycClass
      ∧ superIter cycTable 1 (some cycClass) = some cycClass := by
  constructor
  · intro fuel
    show isAbilityClass ABILITY_BASE_V1 cycTable fuel cycClass = none
    unfold isAbilityClass
    simp only [show ABILITY_BASE_V1.contains cycClass.superClassName = false
        from rfl, if_false]
    exact cyc_walk_stuck fuel
  · rfl

/-! ## Normal form of the V1 scan (used for C3) -/

theorem scanMethodsV1_eq (acat ccat : List String) (isAb isComp : Bool)
    (cn fn : String) :
    ∀ (ms : List MethodE) (acc : List LifecycleMethodE),
      scanMethodsV1 acat ccat isAb isComp cn fn acc ms
        = acc ++ ms.flatMap (emitV1 acat ccat isAb isComp cn fn)
  | [], acc => by simp [scanMethodsV1]
  | m :: ms, acc => by
      rw [scanMethodsV1, scanMethodsV1_eq acat ccat isAb isComp cn fn ms,
        List.flatMap_cons, List.append_assoc]

theorem scanClassV1_eq (table : List ClassE) (acat ccat : List String)
    (fuel : Nat) (fn : String) (acc : List LifecycleMethodE) (c : ClassE) :
    scanClassV1 table acat ccat fuel fn acc c
      = (classEmissionV1 table acat ccat fuel fn c).map (fun e => acc ++ e) := by
  unfold scanClassV1 classEmissionV1
  by_cases hs : skipClassV1 c.name = true
  · rw [if_pos hs, if_pos hs]
    simp
  · rw [if_neg hs, if_neg hs]
    cases isAbilityClass ABILITY_BASE_V1 table fuel c
    · rfl
    · simp [scanMethodsV1_eq]

theorem scanClassesV1_eq (table : List ClassE) (acat ccat : List String)
    (fuel : Nat) (fn : String) :
    ∀ (cs : List ClassE) (acc : List LifecycleMethodE),
      scanClassesV1 table acat ccat fuel fn acc cs
        = (classesEmissionV1 table acat ccat fuel fn cs).map (fun e => acc ++ e)
  | [], acc => by simp [scanClassesV1, classesEmissionV1]
  | c :: cs, acc => by
      rw [scanClassesV1, scanClassV1_eq]
      unfold classesEmissionV1
      cases classEmissionV1 table acat ccat fuel fn c
      · rfl
      · rename_i e
        show scanClassesV1 table acat ccat fuel fn (acc ++ e) cs
            = Option.map (fun x => acc ++ x)
                (match classesEmissionV1 table acat ccat fuel fn cs with
                 | none => none
                 | some es => some (e ++ es))
        rw [scanClassesV1_eq table acat ccat fuel fn cs (acc ++ e)]
        cases classesEmissionV1 table acat ccat fuel fn cs
        · rfl
        · simp

theorem scanFileV1_eq (table : List ClassE) (acat ccat : List String)
    (fuel : Nat) (acc : List LifecycleMethodE) (f : FileE) :
    scanFileV1 table acat ccat fuel acc f
      = (fileEmissionV1 table acat ccat fuel f).map (fun e => acc ++ e) := by
  unfold scanFileV1 fileEmissionV1
  by_cases ht : isTestFile f.name = true
  · rw [if_pos ht, if_pos ht]
    simp
  · rw [if_neg ht, if_neg ht, scanClassesV1_eq]

theorem scanFilesV1_eq (table : List ClassE) (acat ccat : List String)
    (fuel : Nat) :
    ∀ (files : List FileE) (acc : List LifecycleMethodE),
      scanFilesV1 table acat ccat fuel acc files
        = (filesEmissionV1 table acat ccat fuel files).map (fun e => acc ++ e)
  | [], acc => by simp [scanFilesV1, filesEmissionV1]
  | f :: fs, acc => by
      rw [scanFilesV1, scanFileV1_eq]
      unfold filesEmissionV1
      cases fileEmissionV1 table acat ccat fuel f
      · rfl
      · rename_i e
        show scanFilesV1 table acat ccat fuel (acc ++ e) fs
            = Option.map (fun x => acc ++ x)
                (match filesEmissionV1 table acat ccat fuel fs with
                 | none => none
                 | some es => some (e ++ es))
        rw [scanFilesV1_eq table acat ccat fuel fs (acc ++ e)]
        cases filesEmissionV1 table acat ccat fuel fs
        · rfl
        · simp

theorem mem_of_classesEmissionV1 (table : List ClassE)
    (acat ccat : List String) (fuel : Nat) (fn : String) :
    ∀ (cs : List ClassE) (L : List LifecycleMethodE) (c : ClassE),
      classesEmissionV1 table acat ccat fuel fn cs = some L → c ∈ cs →
      ∃ e, classEmissionV1 table acat ccat fuel fn c = some e
        ∧ ∀ x ∈ e, x ∈ L
  | [], _, _, _, hc => absurd hc (List.not_mem_nil _)
  | c0 :: cs, L, c, hL, hc => by
      unfold classesEmissionV1 at hL
      cases he : classEmissionV1 table acat ccat fuel fn c0 with
      | none => rw [he] at hL; exact absurd hL (by simp)
      | some e =>
          rw [he] at hL
          cases hes : classesEmissionV1 table acat ccat fuel fn cs with
          | none => rw [hes] at hL; exact absurd hL (by simp)
          | some es =>
              rw [hes] at hL
              have hLeq : e ++ es = L := by simpa using hL
              rcases List.mem_cons.mp hc with hceq | hmem
              · subst hceq
                exact ⟨e, he, fun x hx => by
                  rw [hLeq.symm]; exact List.mem_append_left es hx⟩
              · obtain ⟨e', he', hsub⟩ :=
                  mem_of_classesEmissionV1 table acat ccat fuel fn cs es c
                    hes hmem
                exact ⟨e', he', fun x hx => by
                  rw [hLeq.symm]; exact List.mem_append_right e (hsub x hx)⟩

theorem mem_of_filesEmissionV1 (table : List ClassE)
    (acat ccat : List String) (fuel : Nat) :
    ∀ (fs : List FileE) (L : List LifecycleMethodE) (f : FileE),
      filesEmissionV1 table acat ccat fuel fs = some L → f ∈ fs →
      ∃ e, fileEmissionV1 table acat ccat fuel f = some e ∧ ∀ x ∈ e, x ∈ L
  | [], _, _, _, hf => absurd hf (List.not_mem_nil _)
  | f0 :: fs, L, f, hL, hf => by
      unfold filesEmissionV1 at hL
      cases he : fileEmissionV1 table acat ccat fuel f0 with
      | none => rw [he] at hL; exact absurd hL (by simp)
      | some e =>
          rw [he] at hL
          cases hes : filesEmissionV1 table acat ccat fuel fs with
          | none => rw [hes] at hL; exact absurd hL (by simp)
          | some es =>
              rw [hes] at hL
              have hLeq : e ++ es = L := by simpa using hL
              rcases List.mem_cons.mp hf with hfeq | hmem
              · subst hfeq
                exact ⟨e, he, fun x hx => by
                  rw [hLeq.symm]; exact List.mem_append_left es hx⟩
              · obtain ⟨e', he', hsub⟩ :=
                  mem_of_filesEmissionV1 table acat ccat fuel fs es f hes hmem
                exact ⟨e', he', fun x hx => by
                  rw [hLeq.symm]; exact List.mem_append_right e (hsub x hx)⟩

/-! ## C3 — no precedence between the Ability and Component roles -/

/-- C3 counterexample: a class matching both the Ability base set and the
Component base set still yields a record under the Component catalog
partition — the only record of this scan is Component-typed, refuting "only
under the Ability catalog partition". -/
theorem c3_counterexample :
    isAbilityClass ABILITY_BASE_V1 (classTable bothFiles) 1 clsBothRoles
        = some true
      ∧ isComponentClassV1 clsBothRoles = true
      ∧ (identifyLifecycleMethodsV1 1 bothFiles).map
          (fun rs => rs.map (fun r => r.typ)) = some [LType.component] := by
  refine ⟨rfl, rfl, ?_⟩
  rfl

/-- C3 (amended): there is no precedence between the roles — the two catalog
checks of `identifyLifecycleMethods` run independently, so every method of a
class that passed the Ability check and the Component check contributes a
Component-partition record whenever its name is in the Component catalog, and
additionally an Ability-partition record whenever its name is in the Ability
catalog. -/
theorem c3_no_role_precedence (fuel : Nat) (files : List FileE)
    (out : List LifecycleMethodE) (f : FileE) (c : ClassE) (m : MethodE)
    (hrun : identifyLifecycleMethodsV1 fuel files = some out)
    (hf : f ∈ files) (hft : isTestFile f.name = false)
    (hc : c ∈ f.classes) (hskip : skipClassV1 c.name = false)
    (hab : isAbilityClass ABILITY_BASE_V1 (classTable files) fuel c = some true)
    (hcomp : isComponentClassV1 c = true)
    (hm : m ∈ c.methods)
    (hccat : COMPONENT_LIFECYCLE_V1.contains m.name = true) :
    ({ method := m, typ := .component, phase := m.name, className := c.name
       filePath := f.name } : LifecycleMethodE) ∈ out
      ∧ (ABILITY_LIFECYCLE_V1.contains m.name = true →
        ({ method := m, typ := .ability, phase := m.name, className := c.name
           filePath := f.name } : LifecycleMethodE) ∈ out) := by
  have hfe : filesEmissionV1 (classTable files) ABILITY_LIFECYCLE_V1
      COMPONENT_LIFECYCLE_V1 fuel files = some out := by
    have := hrun
    unfold identifyLifecycleMethodsV1 at this
    rw [scanFilesV1_eq] at this
    cases hx : filesEmissionV1 (classTable files) ABILITY_LIFECYCLE_V1
        COMPONENT_LIFECYCLE_V1 fuel files with
    | none => rw [hx] at this; exact absurd this (by simp)
    | some L =>
        rw [hx] at this
        have : L = out := by simpa using this
        rw [this]
  obtain ⟨ef, hef, hefsub⟩ :=
    mem_of_filesEmissionV1 (classTable files) ABILITY_LIFECYCLE_V1
      COMPONENT_LIFECYCLE_V1 fuel files out f hfe hf
  have hef' : classesEmissionV1 (classTable files) ABILITY_LIFECYCLE_V1
      COMPONENT_LIFECYCLE_V1 fuel f.name f.classes = some ef := by
    unfold fileEmissionV1 at hef
    rwa [if_neg (by simp [hft])] at hef
  obtain ⟨ec, hec, hecsub⟩ :=
    mem_of_classesEmissionV1 (classTable files) ABILITY_LIFECYCLE_V1
      COMPONENT_LIFECYCLE_V1 fuel f.name f.classes ef c hef' hc
  have hec' : ec = c.methods.flatMap
      (emitV1 ABILITY_LIFECYCLE_V1 COMPONENT_LIFECYCLE_V1 true
        (isComponentClassV1 c) c.name f.name) := by
    unfold classEmissionV1 at hec
    rw [if_neg (by simp [hskip]), hab] at hec
    simpa using hec.symm
  have hsub : ∀ x ∈ emitV1 ABILITY_LIFECYCLE_V1 COMPONENT_LIFECYCLE_V1 true
      (isComponentClassV1 c) c.name f.name m, x ∈ out := by
    intro x hx
    exact hefsub x (hecsub x (by
      rw [hec']
      exact List.mem_flatMap.mpr ⟨m, hm, hx⟩))
  have hmemc : m.name ∈ COMPONENT_LIFECYCLE_V1 :=
    List.mem_of_elem_eq_true hccat
  constructor
  · apply hsub
    unfold emitV1
    apply List.mem_append_right
    rw [if_pos (by simp [hcomp, hmemc])]
    exact List.mem_singleton.mpr rfl
  · intro hacat
    have hmema : m.name ∈ ABILITY_LIFECYCLE_V1 :=
      List.mem_of_elem_eq_true hacat
    apply hsub
    unfold emitV1
    apply List.mem_append_left
    rw [if_pos (by simp [hmema])]
    exact List.mem_singleton.mpr rfl

/-- C3 witness: the no-precedence theorem applied to the concrete both-roles
scene, whose scan output is the single Component record. -/
theorem c3_witness :
    ({ method := mAboutToAppear, typ := .component
       phase := mAboutToAppear.name, className := clsBothRoles.name
       filePath := (⟨"Widget.ets", [clsBothRoles]⟩ : FileE).name } :
      LifecycleMethodE) ∈ [compRecBoth]
      ∧ (ABILITY_LIFECYCLE_V1.contains mAboutToAppear.name = true →
        ({ method := mAboutToAppear, typ := .ability
           phase := mAboutToAppear.name, className := clsBothRoles.name
           filePath := (⟨"Widget.ets", [clsBothRoles]⟩ : FileE).name } :
          LifecycleMethodE) ∈ [compRecBoth]) :=
  c3_no_role_precedence 1 bothFiles [compRecBoth]
    ⟨"Widget.ets", [clsBothRoles]⟩ clsBothRoles mAboutToAppear
    rfl (by decide) rfl (by decide) rfl rfl rfl (by decide) rfl

/-! ## C9 — test files contribute nothing -/

theorem scanFileV3_of_test (table : List ClassE) (acat ccat : List String)
    (fuel : Nat) (st : V3State) (f : FileE) (h : isTestFile f.name = true) :
    scanFileV3 table acat ccat fuel st f = some st := by
  unfold scanFileV3
  rw [if_pos h]

theorem scanFilesV3_filter_test (table : List ClassE) (acat ccat : List String)
    (fuel : Nat) :
    ∀ (files : List FileE) (st : V3State),
      scanFilesV3 table acat ccat fuel st files
        = scanFilesV3 table acat ccat fuel st
            (files.filter (fun f => !isTestFile f.name))
  | [], _ => rfl
  | f :: fs, st => by
      by_cases ht : isTestFile f.name = true
      · have h2 : (f :: fs).filter (fun f => !isTestFile f.name)
            = fs.filter (fun f => !isTestFile f.name) := by
          simp [List.filter_cons, ht]
        rw [h2, scanFilesV3, scanFileV3_of_test table acat ccat fuel st f ht]
        exact scanFilesV3_filter_test table acat ccat fuel fs st
      · have h2 : (f :: fs).filter (fun f => !isTestFile f.name)
            = f :: fs.filter (fun f => !isTestFile f.name) := by
          simp [List.filter_cons, ht]
        rw [h2, scanFilesV3, scanFilesV3]
        cases scanFileV3 table acat ccat fuel st f
        · rfl
        · exact scanFilesV3_filter_test table acat ccat fuel fs _

theorem scanFileV1_of_test (table : List ClassE) (acat ccat : List String)
    (fuel : Nat) (acc : List LifecycleMethodE) (f : FileE)
    (h : isTestFile f.name = true) :
    scanFileV1 table acat ccat fuel acc f = some acc := by
  unfold scanFileV1
  rw [if_pos h]

theorem scanFilesV1_filter_test (table : List ClassE)
    (acat ccat : List String) (fuel : Nat) :
    ∀ (files : List FileE) (acc : List LifecycleMethodE),
      scanFilesV1 table acat ccat fuel acc files
        = scanFilesV1 table acat ccat fuel acc
            (files.filter (fun f => !isTestFile f.name))
  | [], _ => rfl
  | f :: fs, acc => by
      by_cases ht : isTestFile f.name = true
      · have h2 : (f :: fs).filter (fun f => !isTestFile f.name)
            = fs.filter (fun f => !isTestFile f.name) := by
          simp [List.filter_cons, ht]
        rw [h2, scanFilesV1, scanFileV1_of_test table acat ccat fuel acc f ht]
        exact scanFilesV1_filter_test table acat ccat fuel fs acc
      · have h2 : (f :: fs).filter (fun f => !isTestFile f.name)
            = f :: fs.filter (fun f => !isTestFile f.name) := by
          simp [List.filter_cons, ht]
        rw [h2, scanFilesV1, scanFilesV1]
        cases scanFileV1 table acat ccat fuel acc f
        · rfl
        · exact scanFilesV1_filter_test table acat ccat fuel fs _

theorem analyzeFileP0_of_test (solverThrows : MethodE → Bool) (st : P0State)
    (f : FileE) (h : isTestFile f.name = true) :
    analyzeFileP0 solverThrows st f = st := by
  unfold analyzeFileP0
  rw [if_pos h]

theorem analyzeFilesP0_filter_test (solverThrows : MethodE → Bool) :
    ∀ (files : List FileE) (st : P0State),
      analyzeFilesP0 solverThrows st files
        = analyzeFilesP0 solverThrows st
            (files.filter (fun f => !isTestFile f.name))
  | [], _ => rfl
  | f :: fs, st => by
      by_cases ht : isTestFile f.name = true
      · have h2 : (f :: fs).filter (fun f => !isTestFile f.name)
            = fs.filter (fun f => !isTestFile f.name) := by
          simp [List.filter_cons, ht]
        rw [h2, analyzeFilesP0, analyzeFileP0_of_test solverThrows st f ht]
        exact analyzeFilesP0_filter_test solverThrows fs st
      · have h2 : (f :: fs).filter (fun f => !isTestFile f.name)
            = f :: fs.filter (fun f => !isTestFile f.name) := by
          simp [List.filter_cons, ht]
        rw [h2, analyzeFilesP0, analyzeFilesP0]
        exact analyzeFilesP0_filter_test solverThrows fs _

theorem scanFileEnh_of_test (table : List ClassE) (acat ccat : List String)
    (fuel : Nat) (st : EnhState) (f : FileE) (h : isTestFile f.name = true) :
    scanFileEnh table acat ccat fuel st f = some st := by
  unfold scanFileEnh
  rw [if_pos h]

theorem scanFilesEnh_filter_test (table : List ClassE)
    (acat ccat : List String) (fuel : Nat) :
    ∀ (files : List FileE) (st : EnhState),
      scanFilesEnh table acat ccat fuel st files
        = scanFilesEnh table acat ccat fuel st
            (files.filter (fun f => !isTestFile f.name))
  | [], _ => rfl
  | f :: fs, st => by
      by_cases ht : isTestFile f.name = true
      · have h2 : (f :: fs).filter (fun f => !isTestFile f.name)
            = fs.filter (fun f => !isTestFile f.name) := by
          simp [List.filter_cons, ht]
        rw [h2, scanFilesEnh, scanFileEnh_of_test table acat ccat fuel st f ht]
        exact scanFilesEnh_filter_test table acat ccat fuel fs st
      · have h2 : (f :: fs).filter (fun f => !isTestFile f.name)
            = f :: fs.filter (fun f => !isTestFile f.name) := by
          simp [List.filter_cons, ht]
        rw [h2, scanFilesEnh, scanFilesEnh]
        cases scanFileEnh table acat ccat fuel st f
        · rfl
        · exact scanFilesEnh_filter_test table acat ccat fuel fs _

/-- C9 (confirmed): files whose name contains `test` or `Test` contribute
nothing — the V1 record scan, the enhanced scan (records, both coverage
tables and the class counters), the V3 lifecycle scan (records, coverage
tables and all class/method counters) and the plain project analyzer
(counters and issue list) each compute the same state as a run over the
scene with every such file removed, so no record, issue or coverage update
originates from a test file. -/
theorem c9_test_files_contribute_nothing :
    (∀ (table : List ClassE) (acat ccat : List String) (fuel : Nat)
        (st : V3State) (files : List FileE),
        scanFilesV3 table acat ccat fuel st files
          = scanFilesV3 table acat ccat fuel st
              (files.filter (fun f => !isTestFile f.name)))
      ∧ (∀ (table : List ClassE) (acat ccat : List String) (fuel : Nat)
          (st : EnhState) (files : List FileE),
          scanFilesEnh table acat ccat fuel st files
            = scanFilesEnh table acat ccat fuel st
                (files.filter (fun f => !isTestFile f.name)))
      ∧ (∀ (table : List ClassE) (acat ccat : List String) (fuel : Nat)
          (acc : List LifecycleMethodE) (files : List FileE),
          scanFilesV1 table acat ccat fuel acc files
            = scanFilesV1 table acat ccat fuel acc
                (files.filter (fun f => !isTestFile f.name)))
      ∧ (∀ (solverThrows : MethodE → Bool) (st : P0State) (files : List FileE),
          analyzeFilesP0 solverThrows st files
            = analyzeFilesP0 solverThrows st
                (files.filter (fun f => !isTestFile f.name))) :=
  ⟨fun table acat ccat fuel st files =>
      scanFilesV3_filter_test table acat ccat fuel files st,
   fun table acat ccat fuel st files =>
      scanFilesEnh_filter_test table acat ccat fuel files st,
   fun table acat ccat fuel acc files =>
      scanFilesV1_filter_test table acat ccat fuel files acc,
   fun solverThrows st files =>
      analyzeFilesP0_filter_test solverThrows files st⟩

/-! ## Coverage-table invariants (C7, C10) -/

theorem statLE_refl (s : CoverageStat) : statLE s s :=
  ⟨id, le_refl _, ⟨[], List.append_nil _⟩, ⟨[], List.append_nil _⟩⟩

theorem statLE_trans {s t u : CoverageStat} (h1 : statLE s t)
    (h2 : statLE t u) : statLE s u :=
  ⟨fun h => h2.1 (h1.1 h), le_trans h1.2.1 h2.2.1,
   h1.2.2.1.trans h2.2.2.1, h1.2.2.2.trans h2.2.2.2⟩

theorem tableLE_refl : ∀ l : List CoverageStat, tableLE l l
  | [] => List.Forall₂.nil
  | s :: l => List.Forall₂.cons (statLE_refl s) (tableLE_refl l)

theorem tableLE_trans {a b c : List CoverageStat} (h1 : tableLE a b)
    (h2 : tableLE b c) : tableLE a c := by
  induction h1 generalizing c with
  | nil => cases h2; exact List.Forall₂.nil
  | cons hab _ ih =>
      cases h2 with
      | cons hbc h2' => exact List.Forall₂.cons (statLE_trans hab hbc) (ih h2')

theorem bumpStat_statLE (cn fn : String) (s : CoverageStat) :
    statLE s (bumpStat cn fn s) := by
  refine ⟨fun _ => rfl, Nat.le_succ _, ?_, ?_⟩
  · unfold bumpStat
    dsimp only
    split
    · exact ⟨[], List.append_nil _⟩
    · exact ⟨[cn], rfl⟩
  · unfold bumpStat
    dsimp only
    split
    · exact ⟨[], List.append_nil _⟩
    · exact ⟨[fn], rfl⟩

theorem bumpStat_statInv (cn fn : String) (s : CoverageStat) :
    statInv (bumpStat cn fn s) := by
  constructor
  · simp [bumpStat]
  · constructor
    · intro _
      unfold bumpStat
      dsimp only
      split
      · rename_i hmem
        exact List.ne_nil_of_mem (List.mem_of_elem_eq_true hmem)
      · simp
    · intro _
      simp [bumpStat]

theorem updateStats_tableLE (n cn fn : String) :
    ∀ tbl : List CoverageStat, tableLE tbl (updateStats tbl n cn fn)
  | [] => List.Forall₂.nil
  | s :: tbl => by
      unfold updateStats
      rw [List.map_cons]
      refine List.Forall₂.cons ?_ (updateStats_tableLE n cn fn tbl)
      split
      · exact bumpStat_statLE cn fn s
      · exact statLE_refl s

theorem updateStats_statInv (n cn fn : String) (tbl : List CoverageStat)
    (h : ∀ s ∈ tbl, statInv s) :
    ∀ s ∈ updateStats tbl n cn fn, statInv s := by
  intro s hs
  unfold updateStats at hs
  obtain ⟨t, ht, heq⟩ := List.mem_map.mp hs
  by_cases hname : (t.methodName == n) = true
  · rw [if_pos hname] at heq
    rw [heq.symm]
    exact bumpStat_statInv cn fn t
  · rw [if_neg hname] at heq
    rw [heq.symm]
    exact h t ht

theorem stepOK_refl (st : V3State) : stepOK st st :=
  ⟨rfl, tableLE_refl _, tableLE_refl _, id, id⟩

theorem stepOK_trans {a b c : V3State} (h1 : stepOK a b) (h2 : stepOK b c) :
    stepOK a c :=
  ⟨h2.1.trans h1.1, tableLE_trans h1.2.1 h2.2.1,
   tableLE_trans h1.2.2.1 h2.2.2.1,
   fun h => h2.2.2.2.1 (h1.2.2.2.1 h),
   fun h => h2.2.2.2.2 (h1.2.2.2.2 h)⟩

theorem scanMethodV3_stepOK (acat ccat : List String) (isAb isComp : Bool)
    (cn fn : String) (st : V3State) (m : MethodE) :
    stepOK st (scanMethodV3 acat ccat isAb isComp cn fn st m) := by
  unfold scanMethodV3
  dsimp only
  by_cases h1 : (isAb && acat.contains m.name) = true
  · by_cases h2 : (isComp && ccat.contains m.name) = true
    · rw [if_pos h1, if_pos h2]
      exact ⟨rfl, updateStats_tableLE _ _ _ _, updateStats_tableLE _ _ _ _,
        updateStats_statInv _ _ _ _, updateStats_statInv _ _ _ _⟩
    · rw [if_pos h1, if_neg h2]
      exact ⟨rfl, updateStats_tableLE _ _ _ _, tableLE_refl _,
        updateStats_statInv _ _ _ _, id⟩
  · by_cases h2 : (isComp && ccat.contains m.name) = true
    · rw [if_neg h1, if_pos h2]
      exact ⟨rfl, tableLE_refl _, updateStats_tableLE _ _ _ _,
        id, updateStats_statInv _ _ _ _⟩
    · rw [if_neg h1, if_neg h2]
      exact ⟨rfl, tableLE_refl _, tableLE_refl _, id, id⟩

theorem scanMethodsV3_stepOK (acat ccat : List String) (isAb isComp : Bool)
    (cn fn : String) :
    ∀ (ms : List MethodE) (st : V3State),
      stepOK st (scanMethodsV3 acat ccat isAb isComp cn fn st ms)
  | [], st => stepOK_refl st
  | m :: ms, st =>
      stepOK_trans (scanMethodV3_stepOK acat ccat isAb isComp cn fn st m)
        (scanMethodsV3_stepOK acat ccat isAb isComp cn fn ms _)

theorem scanClassV3_stepOK (table : List ClassE) (acat ccat : List String)
    (fuel : Nat) (fn : String) (st st' : V3State) (c : ClassE)
    (h : scanClassV3 table acat ccat fuel fn st c = some st') :
    stepOK st st' := by
  unfold scanClassV3 at h
  by_cases hs : skipClassV3 c.name = true
  · rw [if_pos hs] at h
    cases h
    exact stepOK_refl st
  · rw [if_neg hs] at h
    cases he : isAbilityClass ABILITY_BASE_V3 table fuel c with
    | none => rw [he] at h; exact absurd h (by simp)
    | some isAb =>
        rw [he] at h
        have hst' : st' = scanMethodsV3 acat ccat isAb (isComponentClassV3 c)
            c.name fn
            { st with
              totalClasses := st.totalClasses + 1
              abilityClasses := st.abilityClasses + (if isAb then 1 else 0)
              componentClasses :=
                st.componentClasses
                  + (if isComponentClassV3 c then 1 else 0) }
            c.methods := by
          have := h
          simp only at this
          exact (Option.some_inj.mp this).symm
        rw [hst']
        exact stepOK_trans (stepOK_refl _)
          (scanMethodsV3_stepOK acat ccat isAb (isComponentClassV3 c)
            c.name fn c.methods _)

theorem scanClassesV3_stepOK (table : List ClassE) (acat ccat : List String)
    (fuel : Nat) (fn : String) :
    ∀ (cs : List ClassE) (st st' : V3State),
      scanClassesV3 table acat ccat fuel fn st cs = some st' → stepOK st st'
  | [], st, st', h => by
      cases h
      exact stepOK_refl st
  | c :: cs, st, st', h => by
      rw [scanClassesV3] at h
      cases he : scanClassV3 table acat ccat fuel fn st c with
      | none => rw [he] at h; exact absurd h (by simp)
      | some st1 =>
          rw [he] at h
          exact stepOK_trans
            (scanClassV3_stepOK table acat ccat fuel fn st st1 c he)
            (scanClassesV3_stepOK table acat ccat fuel fn cs st1 st' h)

theorem scanFileV3_stepOK (table : List ClassE) (acat ccat : List String)
    (fuel : Nat) (st st' : V3State) (f : FileE)
    (h : scanFileV3 table acat ccat fuel st f = some st') : stepOK st st' := by
  unfold scanFileV3 at h
  by_cases ht : isTestFile f.name = true
  · rw [if_pos ht] at h
    cases h
    exact stepOK_refl st
  · rw [if_neg ht] at h
    exact scanClassesV3_stepOK table acat ccat fuel f.name f.classes st st' h

theorem scanFilesV3_stepOK (table : List ClassE) (acat ccat : List String)
    (fuel : Nat) :
    ∀ (files : List FileE) (st st' : V3State),
      scanFilesV3 table acat ccat fuel st files = some st' → stepOK st st'
  | [], st, st', h => by
      cases h
      exact stepOK_refl st
  | f :: fs, st, st', h => by
      rw [scanFilesV3] at h
      cases he : scanFileV3 table acat ccat fuel st f with
      | none => rw [he] at h; exact absurd h (by simp)
      | some st1 =>
          rw [he] at h
          exact stepOK_trans
            (scanFileV3_stepOK table acat ccat fuel st st1 f he)
            (scanFilesV3_stepOK table acat ccat fuel fs st1 st' h)

theorem initCoverageTable_statInv (cat : List String) :
    ∀ s ∈ initCoverageTable cat, statInv s := by
  intro s hs
  obtain ⟨n, _, heq⟩ := List.mem_map.mp hs
  rw [heq.symm]
  exact ⟨by simp, by simp⟩

/-! ## Coverage invariants of the enhanced analyzer -/

theorem statLEEnh_refl (s : EnhCoverageStat) : statLEEnh s s :=
  ⟨id, le_refl _, ⟨[], List.append_nil _⟩⟩

theorem statLEEnh_trans {s t u : EnhCoverageStat} (h1 : statLEEnh s t)
    (h2 : statLEEnh t u) : statLEEnh s u :=
  ⟨fun h => h2.1 (h1.1 h), le_trans h1.2.1 h2.2.1, h1.2.2.trans h2.2.2⟩

theorem tableLEEnh_refl : ∀ l : List EnhCoverageStat, tableLEEnh l l
  | [] => List.Forall₂.nil
  | s :: l => List.Forall₂.cons (statLEEnh_refl s) (tableLEEnh_refl l)

theorem tableLEEnh_trans {a b c : List EnhCoverageStat} (h1 : tableLEEnh a b)
    (h2 : tableLEEnh b c) : tableLEEnh a c := by
  induction h1 generalizing c with
  | nil => cases h2; exact List.Forall₂.nil
  | cons hab _ ih =>
      cases h2 with
      | cons hbc h2' =>
          exact List.Forall₂.cons (statLEEnh_trans hab hbc) (ih h2')

theorem bumpEnhStat_statLE (cn : String) (s : EnhCoverageStat) :
    statLEEnh s (bumpEnhStat cn s) :=
  ⟨fun _ => rfl, Nat.le_succ _, ⟨[cn], rfl⟩⟩

theorem bumpEnhStat_statInv (cn : String) (s : EnhCoverageStat) :
    statInvEnh (bumpEnhStat cn s) := by
  constructor
  · simp [bumpEnhStat]
  · constructor
    · intro _
      simp [bumpEnhStat]
    · intro _
      simp [bumpEnhStat]

theorem updateEnhStats_tableLE (n cn : String) :
    ∀ tbl : List EnhCoverageStat, tableLEEnh tbl (updateEnhStats tbl n cn)
  | [] => List.Forall₂.nil
  | s :: tbl => by
      unfold updateEnhStats
      rw [List.map_cons]
      refine List.Forall₂.cons ?_ (updateEnhStats_tableLE n cn tbl)
      split
      · exact bumpEnhStat_statLE cn s
      · exact statLEEnh_refl s

theorem updateEnhStats_statInv (n cn : String) (tbl : List EnhCoverageStat)
    (h : ∀ s ∈ tbl, statInvEnh s) :
    ∀ s ∈ updateEnhStats tbl n cn, statInvEnh s := by
  intro s hs
  unfold updateEnhStats at hs
  obtain ⟨t, ht, heq⟩ := List.mem_map.mp hs
  by_cases hname : (t.methodName == n) = true
  · rw [if_pos hname] at heq
    rw [heq.symm]
    exact bumpEnhStat_statInv cn t
  · rw [if_neg hname] at heq
    rw [heq.symm]
    exact h t ht

theorem stepOKEnh_refl (st : EnhState) : stepOKEnh st st :=
  ⟨tableLEEnh_refl _, tableLEEnh_refl _, id, id⟩

theorem stepOKEnh_trans {a b c : EnhState} (h1 : stepOKEnh a b)
    (h2 : stepOKEnh b c) : stepOKEnh a c :=
  ⟨tableLEEnh_trans h1.1 h2.1, tableLEEnh_trans h1.2.1 h2.2.1,
   fun h => h2.2.2.1 (h1.2.2.1 h), fun h => h2.2.2.2 (h1.2.2.2 h)⟩

theorem scanMethodEnh_stepOK (acat ccat : List String) (isAb isComp : Bool)
    (cn fn : String) (st : EnhState) (m : MethodE) :
    stepOKEnh st (scanMethodEnh acat ccat isAb isComp cn fn st m) := by
  unfold scanMethodEnh
  dsimp only
  by_cases h1 : (isAb && acat.contains m.name) = true
  · by_cases h2 : (isComp && ccat.contains m.name) = true
    · rw [if_pos h1, if_pos h2]
      exact ⟨updateEnhStats_tableLE _ _ _, updateEnhStats_tableLE _ _ _,
        updateEnhStats_statInv _ _ _, updateEnhStats_statInv _ _ _⟩
    · rw [if_pos h1, if_neg h2]
      exact ⟨updateEnhStats_tableLE _ _ _, tableLEEnh_refl _,
        updateEnhStats_statInv _ _ _, id⟩
  · by_cases h2 : (isComp && ccat.contains m.name) = true
    · rw [if_neg h1, if_pos h2]
      exact ⟨tableLEEnh_refl _, updateEnhStats_tableLE _ _ _,
        id, updateEnhStats_statInv _ _ _⟩
    · rw [if_neg h1, if_neg h2]
      exact stepOKEnh_refl st

theorem scanMethodsEnh_stepOK (acat ccat : List String) (isAb isComp : Bool)
    (cn fn : String) :
    ∀ (ms : List MethodE) (st : EnhState),
      stepOKEnh st (scanMethodsEnh acat ccat isAb isComp cn fn st ms)
  | [], st => stepOKEnh_refl st
  | m :: ms, st =>
      stepOKEnh_trans (scanMethodEnh_stepOK acat ccat isAb isComp cn fn st m)
        (scanMethodsEnh_stepOK acat ccat isAb isComp cn fn ms _)

theorem scanClassEnh_stepOK (table : List ClassE) (acat ccat : List String)
    (fuel : Nat) (fn : String) (st st' : EnhState) (c : ClassE)
    (h : scanClassEnh table acat ccat fuel fn st c = some st') :
    stepOKEnh st st' := by
  unfold scanClassEnh at h
  by_cases hs : skipClassEnh c.name = true
  · rw [if_pos hs] at h
    cases h
    exact stepOKEnh_refl st
  · rw [if_neg hs] at h
    cases he : isAbilityClass ABILITY_BASE_ENH table fuel c with
    | none => rw [he] at h; exact absurd h (by simp)
    | some isAb =>
        rw [he] at h
        have hst' := (Option.some_inj.mp h).symm
        rw [hst']
        exact stepOKEnh_trans (stepOKEnh_refl _)
          (scanMethodsEnh_stepOK acat ccat isAb (isComponentClassV1 c)
            c.name fn c.methods
            { st with
              totalClasses := st.totalClasses + 1
              abilityClasses := st.abilityClasses + (if isAb then 1 else 0)
              componentClasses :=
                st.componentClasses
                  + (if isComponentClassV1 c then 1 else 0) })

theorem scanClassesEnh_stepOK (table : List ClassE) (acat ccat : List String)
    (fuel : Nat) (fn : String) :
    ∀ (cs : List ClassE) (st st' : EnhState),
      scanClassesEnh table acat ccat fuel fn st cs = some st' →
      stepOKEnh st st'
  | [], st, _, h => by
      cases h
      exact stepOKEnh_refl st
  | c :: cs, st, st', h => by
      rw [scanClassesEnh] at h
      cases he : scanClassEnh table acat ccat fuel fn st c with
      | none => rw [he] at h; exact absurd h (by simp)
      | some st1 =>
          rw [he] at h
          exact stepOKEnh_trans
            (scanClassEnh_stepOK table acat ccat fuel fn st st1 c he)
            (scanClassesEnh_stepOK table acat ccat fuel fn cs st1 st' h)

theorem scanFileEnh_stepOK (table : List ClassE) (acat ccat : List String)
    (fuel : Nat) (st st' : EnhState) (f : FileE)
    (h : scanFileEnh table acat ccat fuel st f = some st') :
    stepOKEnh st st' := by
  unfold scanFileEnh at h
  by_cases ht : isTestFile f.name = true
  · rw [if_pos ht] at h
    cases h
    exact stepOKEnh_refl st
  · rw [if_neg ht] at h
    exact scanClassesEnh_stepOK table acat ccat fuel f.name f.classes st st' h

theorem scanFilesEnh_stepOK (table : List ClassE) (acat ccat : List String)
    (fuel : Nat) :
    ∀ (files : List FileE) (st st' : EnhState),
      scanFilesEnh table acat ccat fuel st files = some st' → stepOKEnh st st'
  | [], st, _, h => by
      cases h
      exact stepOKEnh_refl st
  | f :: fs, st, st', h => by
      rw [scanFilesEnh] at h
      cases he : scanFileEnh table acat ccat fuel st f with
      | none => rw [he] at h; exact absurd h (by simp)
      | some st1 =>
          rw [he] at h
          exact stepOKEnh_trans
            (scanFileEnh_stepOK table acat ccat fuel st st1 f he)
            (scanFilesEnh_stepOK table acat ccat fuel fs st1 st' h)

theorem initEnhTable_statInv (cat : List String) :
    ∀ s ∈ initEnhTable cat, statInvEnh s := by
  intro s hs
  obtain ⟨n, _, heq⟩ := List.mem_map.mp hs
  rw [heq.symm]
  exact ⟨by simp, by simp⟩

/-! ## C7 — the three-way CoverageStat equivalence and monotone growth -/

/-- C7 (confirmed): after any scan of the enhanced or V3 analyzer, every
entry of the ability and component coverage tables satisfies `isUsed ↔
usageCount > 0 ↔ classes non-empty`, and both tables only grow from the
initialized tables; moreover any V3 scan segment, from any starting state,
only grows the two tables entrywise (used flags never fall back, counts
never decrease, class and file collections only extend) — nothing is ever
reset. -/
theorem c7_coverage_invariant :
    (∀ (acat ccat cbcat : List String) (fuel : Nat) (files : List FileE)
        (out : V3State),
        identifyLifecycleMethodsV3 acat ccat cbcat fuel files = some out →
        (∀ s ∈ out.abilityStats, statInv s)
          ∧ (∀ s ∈ out.componentStats, statInv s)
          ∧ tableLE (initCoverageTable acat) out.abilityStats
          ∧ tableLE (initCoverageTable ccat) out.componentStats)
      ∧ (∀ (table : List ClassE) (acat ccat : List String) (fuel : Nat)
            (st st' : V3State) (files : List FileE),
          scanFilesV3 table acat ccat fuel st files = some st' →
          tableLE st.abilityStats st'.abilityStats
            ∧ tableLE st.componentStats st'.componentStats)
      ∧ (∀ (acat ccat : List String) (fuel : Nat) (files : List FileE)
            (out : EnhState),
          identifyLifecycleMethodsEnh acat ccat fuel files = some out →
          (∀ s ∈ out.abilityStats, statInvEnh s)
            ∧ (∀ s ∈ out.componentStats, statInvEnh s)
            ∧ tableLEEnh (initEnhTable acat) out.abilityStats
            ∧ tableLEEnh (initEnhTable ccat) out.componentStats) := by
  refine ⟨?_, ?_, ?_⟩
  · intro acat ccat cbcat fuel files out hrun
    have hso := scanFilesV3_stepOK (classTable files) acat ccat fuel files
      _ out hrun
    exact ⟨hso.2.2.2.1 (initCoverageTable_statInv acat),
      hso.2.2.2.2 (initCoverageTable_statInv ccat),
      hso.2.1, hso.2.2.1⟩
  · intro table acat ccat fuel st st' files h
    have hso := scanFilesV3_stepOK table acat ccat fuel files st st' h
    exact ⟨hso.2.1, hso.2.2.1⟩
  · intro acat ccat fuel files out hrun
    have hso := scanFilesEnh_stepOK (classTable files) acat ccat fuel files
      _ out hrun
    exact ⟨hso.2.2.1 (initEnhTable_statInv acat),
      hso.2.2.2 (initEnhTable_statInv ccat),
      hso.1, hso.2.1⟩

/-- C7 witness: the invariant and growth conclusions evaluated on the
concrete one-class scene, for both analyzers. -/
theorem c7_witness :
    ((∀ s ∈ v3OutW.abilityStats, statInv s)
        ∧ (∀ s ∈ v3OutW.componentStats, statInv s)
        ∧ tableLE (initCoverageTable ["onCreate"]) v3OutW.abilityStats
        ∧ tableLE (initCoverageTable ["aboutToAppear"]) v3OutW.componentStats)
      ∧ (tableLE ({ initV3State ["onCreate"] ["aboutToAppear"] ["onClick"] with
            totalFiles := filesW.length } : V3State).abilityStats
            v3OutW.abilityStats
          ∧ tableLE ({ initV3State ["onCreate"] ["aboutToAppear"]
              ["onClick"] with
            totalFiles := filesW.length } : V3State).componentStats
            v3OutW.componentStats)
      ∧ ((∀ s ∈ enhOutW.abilityStats, statInvEnh s)
          ∧ (∀ s ∈ enhOutW.componentStats, statInvEnh s)
          ∧ tableLEEnh (initEnhTable ["onCreate"]) enhOutW.abilityStats
          ∧ tableLEEnh (initEnhTable ["aboutToAppear"])
              enhOutW.componentStats) :=
  ⟨c7_coverage_invariant.1 ["onCreate"] ["aboutToAppear"] ["onClick"] 1
      filesW v3OutW rfl,
   c7_coverage_invariant.2.1 (classTable filesW) ["onCreate"]
      ["aboutToAppear"] 1
      { initV3State ["onCreate"] ["aboutToAppear"] ["onClick"] with
        totalFiles := filesW.length } v3OutW filesW rfl,
   c7_coverage_invariant.2.2 ["onCreate"] ["aboutToAppear"] 1 filesW
      enhOutW rfl⟩

/-! ## C10 — the callback coverage table is never written -/

/-- C10 (confirmed): the V3 scan never updates the callback-method coverage
table — after any full run every callback entry still carries the initial
values: unused, count zero, empty class and file collections. -/
theorem c10_callback_table_never_updated (acat ccat cbcat : List String)
    (fuel : Nat) (files : List FileE) (out : V3State)
    (hrun : identifyLifecycleMethodsV3 acat ccat cbcat fuel files = some out) :
    ∀ s ∈ out.callbackStats,
      s.isUsed = false ∧ s.usageCount = 0 ∧ s.classes = [] ∧ s.files = [] := by
  have hcb : out.callbackStats = initCoverageTable cbcat :=
    (scanFilesV3_stepOK (classTable files) acat ccat fuel files _ out hrun).1
  rw [hcb]
  intro s hs
  obtain ⟨n, _, heq⟩ := List.mem_map.mp hs
  rw [heq.symm]
  exact ⟨rfl, rfl, rfl, rfl⟩

/-- C10 witness: the single callback entry of the concrete run is still
pristine. -/
theorem c10_witness :
    ({ methodName := "onClick", isDefined := true, isUsed := false
       usageCount := 0, classes := [], files := [] } : CoverageStat).isUsed
        = false
      ∧ ({ methodName := "onClick", isDefined := true, isUsed := false
           usageCount := 0, classes := [], files := [] } :
          CoverageStat).usageCount = 0
      ∧ ({ methodName := "onClick", isDefined := true, isUsed := false
           usageCount := 0, classes := [], files := [] } :
          CoverageStat).classes = []
      ∧ ({ methodName := "onClick", isDefined := true, isUsed := false
           usageCount := 0, classes := [], files := [] } :
          CoverageStat).files = [] :=
  c10_callback_table_never_updated ["onCreate"] ["aboutToAppear"] ["onClick"]
    1 filesW v3OutW rfl
    { methodName := "onClick", isDefined := true, isUsed := false
      usageCount := 0, classes := [], files := [] }
    (by decide)

/-! ## C8 — a superset Ability catalog only finds more records -/

theorem scanMethodV3_records_mono (acat acat' ccat : List String)
    (hsub : ∀ x, x ∈ acat → x ∈ acat') (isAb isComp : Bool) (cn fn : String)
    (st st' : V3State) (m : MethodE)
    (hR : st.lifecycleMethods <+ st'.lifecycleMethods) :
    (scanMethodV3 acat ccat isAb isComp cn fn st m).lifecycleMethods
      <+ (scanMethodV3 acat' ccat isAb isComp cn fn st' m).lifecycleMethods := by
  unfold scanMethodV3
  dsimp only
  by_cases h1 : (isAb && acat.contains m.name) = true
  · have h1' : (isAb && acat'.contains m.name) = true := by
      obtain ⟨ha, hc⟩ := Bool.and_eq_true_iff.mp h1
      have hc' : acat'.contains m.name = true :=
        List.elem_eq_true_of_mem (hsub m.name (List.mem_of_elem_eq_true hc))
      rw [ha, hc']
      rfl
    rw [if_pos h1, if_pos h1']
    by_cases h2 : (isComp && ccat.contains m.name) = true
    · rw [if_pos h2, if_pos h2]
      exact (hR.append (List.Sublist.refl _)).append (List.Sublist.refl _)
    · rw [if_neg h2, if_neg h2]
      exact hR.append (List.Sublist.refl _)
  · by_cases h1' : (isAb && acat'.contains m.name) = true
    · rw [if_neg h1, if_pos h1']
      by_cases h2 : (isComp && ccat.contains m.name) = true
      · rw [if_pos h2, if_pos h2]
        exact (hR.trans
          (List.sublist_append_left st'.lifecycleMethods _)).append
          (List.Sublist.refl _)
      · rw [if_neg h2, if_neg h2]
        exact hR.trans (List.sublist_append_left st'.lifecycleMethods _)
    · rw [if_neg h1, if_neg h1']
      by_cases h2 : (isComp && ccat.contains m.name) = true
      · rw [if_pos h2, if_pos h2]
        exact hR.append (List.Sublist.refl _)
      · rw [if_neg h2, if_neg h2]
        exact hR

theorem scanMethodsV3_records_mono (acat acat' ccat : List String)
    (hsub : ∀ x, x ∈ acat → x ∈ acat') (isAb isComp : Bool) (cn fn : String) :
    ∀ (ms : List MethodE) (st st' : V3State),
      st.lifecycleMethods <+ st'.lifecycleMethods →
      (scanMethodsV3 acat ccat isAb isComp cn fn st ms).lifecycleMethods
        <+ (scanMethodsV3 acat' ccat isAb isComp cn fn st' ms).lifecycleMethods
  | [], _, _, hR => hR
  | m :: ms, st, st', hR =>
      scanMethodsV3_records_mono acat acat' ccat hsub isAb isComp cn fn ms _ _
        (scanMethodV3_records_mono acat acat' ccat hsub isAb isComp cn fn
          st st' m hR)

theorem scanClassV3_records_mono (table : List ClassE)
    (acat acat' ccat : List String) (hsub : ∀ x, x ∈ acat → x ∈ acat')
    (fuel : Nat) (fn : String) (st st' o o' : V3State) (c : ClassE)
    (h : scanClassV3 table acat ccat fuel fn st c = some o)
    (h' : scanClassV3 table acat' ccat fuel fn st' c = some o')
    (hR : st.lifecycleMethods <+ st'.lifecycleMethods) :
    o.lifecycleMethods <+ o'.lifecycleMethods := by
  unfold scanClassV3 at h h'
  by_cases hs : skipClassV3 c.name = true
  · rw [if_pos hs] at h h'
    cases h
    cases h'
    exact hR
  · rw [if_neg hs] at h h'
    cases he : isAbilityClass ABILITY_BASE_V3 table fuel c with
    | none =>
        rw [he] at h
        exact absurd h (by simp)
    | some isAb =>
        rw [he] at h h'
        have ho := (Option.some_inj.mp h).symm
        have ho' := (Option.some_inj.mp h').symm
        rw [ho, ho']
        exact scanMethodsV3_records_mono acat acat' ccat hsub isAb
          (isComponentClassV3 c) c.name fn c.methods _ _ hR

theorem scanClassesV3_records_mono (table : List ClassE)
    (acat acat' ccat : List String) (hsub : ∀ x, x ∈ acat → x ∈ acat')
    (fuel : Nat) (fn : String) :
    ∀ (cs : List ClassE) (st st' o o' : V3State),
      scanClassesV3 table acat ccat fuel fn st cs = some o →
      scanClassesV3 table acat' ccat fuel fn st' cs = some o' →
      st.lifecycleMethods <+ st'.lifecycleMethods →
      o.lifecycleMethods <+ o'.lifecycleMethods
  | [], st, st', o, o', h, h', hR => by
      cases h
      cases h'
      exact hR
  | c :: cs, st, st', o, o', h, h', hR => by
      rw [scanClassesV3] at h h'
      cases he : scanClassV3 table acat ccat fuel fn st c with
      | none => rw [he] at h; exact absurd h (by simp)
      | some st1 =>
          rw [he] at h
          cases he' : scanClassV3 table acat' ccat fuel fn st' c with
          | none => rw [he'] at h'; exact absurd h' (by simp)
          | some st1' =>
              rw [he'] at h'
              exact scanClassesV3_records_mono table acat acat' ccat hsub fuel
                fn cs st1 st1' o o' h h'
                (scanClassV3_records_mono table acat acat' ccat hsub fuel fn
                  st st' st1 st1' c he he' hR)

theorem scanFileV3_records_mono (table : List ClassE)
    (acat acat' ccat : List String) (hsub : ∀ x, x ∈ acat → x ∈ acat')
    (fuel : Nat) (st st' o o' : V3State) (f : FileE)
    (h : scanFileV3 table acat ccat fuel st f = some o)
    (h' : scanFileV3 table acat' ccat fuel st' f = some o')
    (hR : st.lifecycleMethods <+ st'.lifecycleMethods) :
    o.lifecycleMethods <+ o'.lifecycleMethods := by
  unfold scanFileV3 at h h'
  by_cases ht : isTestFile f.name = true
  · rw [if_pos ht] at h h'
    cases h
    cases h'
    exact hR
  · rw [if_neg ht] at h h'
    exact scanClassesV3_records_mono table acat acat' ccat hsub fuel f.name
      f.classes st st' o o' h h' hR

theorem scanFilesV3_records_mono (table : List ClassE)
    (acat acat' ccat : List String) (hsub : ∀ x, x ∈ acat → x ∈ acat')
    (fuel : Nat) :
    ∀ (files : List FileE) (st st' o o' : V3State),
      scanFilesV3 table acat ccat fuel st files = some o →
      scanFilesV3 table acat' ccat fuel st' files = some o' →
      st.lifecycleMethods <+ st'.lifecycleMethods →
      o.lifecycleMethods <+ o'.lifecycleMethods
  | [], st, st', o, o', h, h', hR => by
      cases h
      cases h'
      exact hR
  | f :: fs, st, st', o, o', h, h', hR => by
      rw [scanFilesV3] at h h'
      cases he : scanFileV3 table acat ccat fuel st f with
      | none => rw [he] at h; exact absurd h (by simp)
      | some st1 =>
          rw [he] at h
          cases he' : scanFileV3 table acat' ccat fuel st' f with
          | none => rw [he'] at h'; exact absurd h' (by simp)
          | some st1' =>
              rw [he'] at h'
              exact scanFilesV3_records_mono table acat acat' ccat hsub fuel
                fs st1 st1' o o' h h'
                (scanFileV3_records_mono table acat acat' ccat hsub fuel
                  st st' st1 st1' f he he' hR)

/-- C8 (confirmed): over the same program model, swapping the Ability
catalog for any superset — in particular the 12-entry minimal set for the
26-entry framework-complete set — never loses records: the record list of
the smaller-catalog run is a sublist of the larger-catalog run's, so the
total record count is monotonically non-decreasing. -/
theorem c8_superset_catalog_monotone (acat acat' ccat cbcat cbcat' :
    List String) (fuel : Nat) (files : List FileE) (out out' : V3State)
    (hsub : ∀ x, x ∈ acat → x ∈ acat')
    (h : identifyLifecycleMethodsV3 acat ccat cbcat fuel files = some out)
    (h' : identifyLifecycleMethodsV3 acat' ccat cbcat' fuel files = some out') :
    out.lifecycleMethods <+ out'.lifecycleMethods
      ∧ out.lifecycleMethods.length ≤ out'.lifecycleMethods.length := by
  have hrec := scanFilesV3_records_mono (classTable files) acat acat' ccat
    hsub fuel files _ _ out out' h h' (List.Sublist.refl [])
  exact ⟨hrec, hrec.length_le⟩

/-- C8 witness: the subset-catalog run's records are a sublist of the
superset-catalog run's on the concrete two-method scene. -/
theorem c8_witness :
    outSubW.lifecycleMethods <+ outSupW.lifecycleMethods
      ∧ outSubW.lifecycleMethods.length ≤ outSupW.lifecycleMethods.length :=
  c8_superset_catalog_monotone ["onCreate"] ["onCreate", "onDestroy"] [] [] []
    1 filesC8 outSubW outSupW
    (fun x hx => by
      rcases List.mem_singleton.mp hx with h
      rw [h]
      exact List.mem_cons_self _ _)
    rfl rfl

/-- C2 witness: on that one-class scene the superclass chain dies after one
step and classification returns at fuel 0. -/
theorem c2_witness :
    superIter [myAbilityClass] (0 + 1) (some myAbilityClass) = none
      ∧ ((classifyV1 [myAbilityClass] 0 myAbilityClass).isSome
          ∧ (isAbilityClass ABILITY_BASE_V3 [myAbilityClass] 0
              myAbilityClass).isSome) :=
  ⟨rfl, c2_classification_total_on_finite_chains [myAbilityClass] 0
    myAbilityClass rfl⟩

end OpenEye
